import Mathlib

/-!
Verification of the SQL sandboxing and rewriting core of the CSV SQL tool
backend (`src/main.py`).

The two components under study are `_validate_sql` (the Validator: nine
ordered textual checks that either reject a statement with an HTTP 400
error or return it cleaned) and `_wrap_query_with_limit` (the
Limiter/Rewriter: wraps a SELECT without a LIMIT keyword in a subquery
bounded by `LIMIT 1000`).

Statements are modelled as `List Char`.  Python's `str.strip`,
`str.lower`, `str.startswith`, substring tests and the specific regular
expressions used by the source (`\bword\b` searches, `\bw1\s+w2\b`
searches, and anchored `re.match` chains) are given direct executable
models below.  Case folding is modelled for ASCII, which is the alphabet
all the policy patterns live in.
-/

/-- Python whitespace for `str.strip` / `\s` (ASCII part). -/
def pyIsSpace (c : Char) : Bool :=
  c = ' ' || c = '\t' || c = '\n' || c = '\r' || c = '\x0b' || c = '\x0c'

/-- Regex word character `\w` (ASCII part): letters, digits, underscore. -/
def isWordChar (c : Char) : Bool :=
  c.isAlphanum || c = '_'

/-- ASCII case folding, the effect of Python's `str.lower` on the
statement alphabet. -/
def pyLowerChar : Char → Char
  | 'A' => 'a' | 'B' => 'b' | 'C' => 'c' | 'D' => 'd' | 'E' => 'e'
  | 'F' => 'f' | 'G' => 'g' | 'H' => 'h' | 'I' => 'i' | 'J' => 'j'
  | 'K' => 'k' | 'L' => 'l' | 'M' => 'm' | 'N' => 'n' | 'O' => 'o'
  | 'P' => 'p' | 'Q' => 'q' | 'R' => 'r' | 'S' => 's' | 'T' => 't'
  | 'U' => 'u' | 'V' => 'v' | 'W' => 'w' | 'X' => 'x' | 'Y' => 'y'
  | 'Z' => 'z'
  | c => c

/-- `str.lower` over a whole statement. -/
def foldText (s : List Char) : List Char := s.map pyLowerChar

/-- `str.lstrip`. -/
def pyLstrip (s : List Char) : List Char := s.dropWhile pyIsSpace

/-- Remove the longest suffix of characters satisfying `p`
(`str.rstrip` with an explicit character class). -/
def rstripWhile (p : Char → Bool) : List Char → List Char
  | [] => []
  | c :: t =>
    let r := rstripWhile p t
    if r.isEmpty && p c then [] else c :: r

/-- `str.strip`. -/
def pyStrip (s : List Char) : List Char := rstripWhile pyIsSpace (pyLstrip s)

/-- Consume the literal word `w` from the front of `s`, returning the
remainder on success. -/
def eatWord : List Char → List Char → Option (List Char)
  | [], s => some s
  | _ :: _, [] => none
  | x :: w, c :: s => if x = c then eatWord w s else none

/-- Python `str.startswith`. -/
def isPref (w s : List Char) : Bool := (eatWord w s).isSome

/-- Python's `in` operator: `t` occurs as a contiguous substring of `s`. -/
def containsSub (t : List Char) : List Char → Bool
  | [] => t.isEmpty
  | c :: rest => isPref t (c :: rest) || containsSub t rest

/-- A `\b` boundary holds before the remainder `s`: either the text has
ended or the next character is not a word character. -/
def wordBoundary : List Char → Bool
  | [] => true
  | c :: _ => !isWordChar c

/-- Consume `\s+` (at least one whitespace character, greedily). -/
def eatSpaces1 : List Char → Option (List Char)
  | [] => none
  | c :: s => if pyIsSpace c then some (s.dropWhile pyIsSpace) else none

/-- Match the regex `w\s+w₂\s+…\s+wₙ\b` at the start of `s` (the shape of
every pattern chain in the source; a single word is `\bword` and the final
`\b` is `wordBoundary`). -/
def chainHere : List Char → List (List Char) → List Char → Bool
  | w, ws, s =>
    match eatWord w s with
    | none => false
    | some r =>
      match ws with
      | [] => wordBoundary r
      | w2 :: ws' =>
        match eatSpaces1 r with
        | none => false
        | some r2 => chainHere w2 ws' r2

/-- Scan of `re.search` for `\bw\s+w₂…\b`: `prevOk` records whether a word
boundary holds before the current position. -/
def searchChainAux (w : List Char) (ws : List (List Char)) (prevOk : Bool) :
    List Char → Bool
  | [] => false
  | c :: rest =>
    (prevOk && chainHere w ws (c :: rest)) ||
      searchChainAux w ws (!isWordChar c) rest

/-- `re.search(r"\bw\s+w₂…\b", s)` as a Boolean. -/
def searchChain (w : List Char) (ws : List (List Char)) (s : List Char) : Bool :=
  searchChainAux w ws true s

/-- Count the match positions found by `searchChain` (used to state that a
rewritten query has exactly one LIMIT clause). -/
def countChainAux (w : List Char) (ws : List (List Char)) (prevOk : Bool) :
    List Char → Nat
  | [] => 0
  | c :: rest =>
    (if prevOk && chainHere w ws (c :: rest) then 1 else 0) +
      countChainAux w ws (!isWordChar c) rest

/-- Number of word-boundary matches of a pattern chain in `s`. -/
def countChain (w : List Char) (ws : List (List Char)) (s : List Char) : Nat :=
  countChainAux w ws true s

/-- A forbidden pattern of `FORBIDDEN_PATTERNS`: either `\bword\b` or
`\bw1\s+w2\b`. -/
inductive Pat where
  | word : List Char → Pat
  | chain2 : List Char → List Char → Pat

/-- `re.search` of a forbidden pattern. -/
def searchPat : Pat → List Char → Bool
  | .word w, s => searchChain w [] s
  | .chain2 w1 w2, s => searchChain w1 [w2] s

/-- The words of a pattern, for well-formedness side conditions. -/
def patWords : Pat → List Char × List (List Char)
  | .word w => (w, [])
  | .chain2 w1 w2 => (w1, [w2])

/-- A pattern word is nonempty and made of word characters only. -/
def goodWord (w : List Char) : Bool := !w.isEmpty && w.all isWordChar

/-- Well-formedness of a pattern chain. -/
def wordsOK (w : List Char) (ws : List (List Char)) : Bool :=
  (w :: ws).all goodWord

/-- Well-formedness of a forbidden pattern. -/
def patOK : Pat → Bool
  | .word w => wordsOK w []
  | .chain2 w1 w2 => wordsOK w1 [w2]

/-- `FORBIDDEN_PATTERNS` from the source, in order. -/
def FORBIDDEN_PATTERNS : List Pat :=
  [ .word "read_csv_auto".data
  , .word "read_parquet".data
  , .word "parquet_scan".data
  , .word "httpfs".data
  , .word "copy".data
  , .word "attach".data
  , .word "detach".data
  , .word "pragma".data
  , .word "install".data
  , .word "load".data
  , .word "export".data
  , .word "import".data
  , .chain2 "create".data "table".data
  , .chain2 "drop".data "table".data
  , .word "alter".data
  , .word "truncate".data
  , .word "call".data
  , .word "system".data ]

/-- The forbidden-construct loop of `_validate_sql`. -/
def forbiddenHit (s : List Char) : Bool :=
  FORBIDDEN_PATTERNS.any (fun p => searchPat p s)

/-- The allowed leading verbs. -/
def allowedVerbs : List (List Char) :=
  ["select".data, "insert".data, "update".data, "delete".data]

/-- Python `str.startswith` with a tuple of prefixes. -/
def startsWithAny (ps : List (List Char)) (s : List Char) : Bool :=
  ps.any (fun p => isPref p s)

/-- The `HTTPException` payload raised on rejection. -/
structure HTTPError where
  status_code : Nat
  detail : List Char
deriving DecidableEq

def emptyDetail : List Char := "SQL query cannot be empty.".data

def multipleDetail : List Char :=
  "Multiple SQL statements are not allowed. Please run one statement at a time.".data

def verbDetail : List Char :=
  "Only SELECT, INSERT, UPDATE and DELETE statements are allowed.".data

def filesystemDetail : List Char := "File system access is not allowed.".data

def forbiddenDetail : List Char :=
  "This query uses a disallowed command or function.".data

def joinDetail : List Char :=
  "JOIN is not allowed. You can only work with the \x27tablename\x27 table.".data

def fromDetail : List Char :=
  "You can only access the \x27tablename\x27 table loaded from your CSV.".data

def updateDetail : List Char :=
  "You can only UPDATE the \x27tablename\x27 table.".data

def deleteDetail : List Char :=
  "You can only DELETE from the \x27tablename\x27 table.".data

def insertDetail : List Char :=
  "You can only INSERT into the \x27tablename\x27 table.".data

/-- All rejection reason strings of the Validator, in check order. -/
def allDetails : List (List Char) :=
  [ emptyDetail, multipleDetail, verbDetail, filesystemDetail
  , forbiddenDetail, joinDetail, fromDetail, updateDetail
  , deleteDetail, insertDetail ]

/-- `stripped` of `_validate_sql`: trim surrounding whitespace, then drop
one trailing `;` if present. -/
def cleanOnce (sql : List Char) : List Char :=
  if (pyStrip sql).getLast? = some ';' then (pyStrip sql).dropLast
  else pyStrip sql

/-- `_validate_sql` from the source: the nine checks, in order, on the
case-folded copy of the cleaned text; on success the cleaned text itself
(original casing) is returned. -/
def _validate_sql (sql : List Char) : Except HTTPError (List Char) :=
  if (pyStrip sql).isEmpty then .error ⟨400, emptyDetail⟩
  else if containsSub ";".data (foldText (cleanOnce sql)) then
    .error ⟨400, multipleDetail⟩
  else if !startsWithAny allowedVerbs (pyLstrip (foldText (cleanOnce sql))) then
    .error ⟨400, verbDetail⟩
  else if containsSub "/etc/".data (foldText (cleanOnce sql))
      || containsSub "..".data (foldText (cleanOnce sql)) then
    .error ⟨400, filesystemDetail⟩
  else if forbiddenHit (foldText (cleanOnce sql)) then
    .error ⟨400, forbiddenDetail⟩
  else if searchChain "join".data [] (foldText (cleanOnce sql)) then
    .error ⟨400, joinDetail⟩
  else if searchChain "from".data [] (foldText (cleanOnce sql))
      && !searchChain "from".data ["tablename".data] (foldText (cleanOnce sql)) then
    .error ⟨400, fromDetail⟩
  else if isPref "update ".data (foldText (cleanOnce sql))
      && !chainHere "update".data ["tablename".data] (foldText (cleanOnce sql)) then
    .error ⟨400, updateDetail⟩
  else if isPref "delete ".data (foldText (cleanOnce sql))
      && !chainHere "delete".data ["from".data, "tablename".data]
            (foldText (cleanOnce sql)) then
    .error ⟨400, deleteDetail⟩
  else if isPref "insert ".data (foldText (cleanOnce sql))
      && !chainHere "insert".data ["into".data, "tablename".data]
            (foldText (cleanOnce sql)) then
    .error ⟨400, insertDetail⟩
  else .ok (cleanOnce sql)

/-- `cleaned` of `_wrap_query_with_limit`: trim whitespace, then strip
every trailing `;`. -/
def wrapCleaned (sql : List Char) : List Char :=
  rstripWhile (fun c => c = ';') (pyStrip sql)

/-- `_wrap_query_with_limit` from the source.  The caller in
`run_query` uses the default row cap, `max_rows = 1000`. -/
def _wrap_query_with_limit (sql : List Char) (max_rows : Nat) : List Char :=
  if !isPref "select".data (pyLstrip (foldText (wrapCleaned sql))) then
    wrapCleaned sql
  else if searchChain "limit".data [] (pyLstrip (foldText (wrapCleaned sql))) then
    wrapCleaned sql
  else
    "SELECT * FROM (".data ++ wrapCleaned sql
      ++ ") AS subquery LIMIT ".data ++ (Nat.repr max_rows).data

/-! ### Character-level facts -/

theorem pyLowerChar_space (c : Char) : pyIsSpace (pyLowerChar c) = pyIsSpace c := by
  unfold pyLowerChar; split <;> rfl

theorem space_not_word {c : Char} (h : pyIsSpace c = true) : isWordChar c = false := by
  simp only [pyIsSpace, Bool.or_eq_true, decide_eq_true_eq] at h
  rcases h with ((((h | h) | h) | h) | h) | h <;> subst h <;> rfl

theorem word_not_space {c : Char} (h : isWordChar c = true) : pyIsSpace c = false := by
  cases hs : pyIsSpace c
  · rfl
  · rw [space_not_word hs] at h; exact absurd h (by simp)

/-! ### Facts about `rstripWhile`, `pyLstrip`, `pyStrip` -/

theorem rstripWhile_cons (p : Char → Bool) (c : Char) (t : List Char) :
    rstripWhile p (c :: t) =
      if ((rstripWhile p t).isEmpty && p c) = true then [] else c :: rstripWhile p t := rfl

theorem rstripWhile_eq_nil {p : Char → Bool} {s : List Char}
    (h : rstripWhile p s = []) : ∀ c ∈ s, p c = true := by
  induction s with
  | nil => simp
  | cons c t ih =>
    simp only [rstripWhile] at h
    split at h
    · next hc =>
      rcases Bool.and_eq_true .. |>.mp hc with ⟨he, hp⟩
      intro d hd
      rcases List.mem_cons.mp hd with rfl | hd
      · exact hp
      · exact ih (List.isEmpty_iff.mp he) d hd
    · exact absurd h (by simp)

theorem rstripWhile_decomp (p : Char → Bool) (s : List Char) :
    ∃ r, s = rstripWhile p s ++ r ∧ ∀ c ∈ r, p c = true := by
  induction s with
  | nil => exact ⟨[], rfl, by simp⟩
  | cons c t ih =>
    rcases ih with ⟨r, hr, hall⟩
    simp only [rstripWhile]
    split
    · next hc =>
      rcases Bool.and_eq_true .. |>.mp hc with ⟨he, hp⟩
      refine ⟨c :: t, by simp, ?_⟩
      intro d hd
      rcases List.mem_cons.mp hd with rfl | hd
      · exact hp
      · exact rstripWhile_eq_nil (List.isEmpty_iff.mp he) d hd
    · exact ⟨r, by simpa using hr, hall⟩

theorem rstripWhile_getLast {p : Char → Bool} {s : List Char} :
    ∀ c, (rstripWhile p s).getLast? = some c → p c = false := by
  induction s with
  | nil => simp [rstripWhile]
  | cons c t ih =>
    intro d hd
    simp only [rstripWhile] at hd
    split at hd
    · simp at hd
    · next hc =>
      cases hr : rstripWhile p t with
      | nil =>
        rw [hr] at hd
        simp only [List.getLast?_singleton, Option.some.injEq] at hd
        subst hd
        rw [hr] at hc
        simpa using hc
      | cons x r' =>
        rw [hr] at hd
        rw [List.getLast?_cons_cons] at hd
        exact ih d (hr ▸ hd)

theorem rstripWhile_eq_self {p : Char → Bool} {s : List Char}
    (h : ∀ c, s.getLast? = some c → p c = false) : rstripWhile p s = s := by
  induction s with
  | nil => rfl
  | cons c t ih =>
    cases t with
    | nil =>
      have := h c (by simp)
      simp [rstripWhile, this]
    | cons d t' =>
      have ht : rstripWhile p (d :: t') = d :: t' := by
        refine ih ?_
        intro e he
        exact h e (by rw [List.getLast?_cons_cons]; exact he)
      rw [rstripWhile_cons, ht]
      simp

theorem rstripWhile_idem (p : Char → Bool) (s : List Char) :
    rstripWhile p (rstripWhile p s) = rstripWhile p s :=
  rstripWhile_eq_self (fun c hc => rstripWhile_getLast c hc)

theorem rstripWhile_head {p : Char → Bool} {s : List Char}
    (h : rstripWhile p s ≠ []) : (rstripWhile p s).head? = s.head? := by
  cases s with
  | nil => rfl
  | cons c t =>
    by_cases hc : ((rstripWhile p t).isEmpty && p c) = true
    · rw [rstripWhile_cons, if_pos hc] at h; exact absurd rfl h
    · rw [rstripWhile_cons, if_neg hc]; rfl

theorem rstripWhile_pref (p : Char → Bool) (s : List Char) :
    rstripWhile p s <+: s := by
  induction s with
  | nil => exact List.prefix_refl _
  | cons c t ih =>
    rw [rstripWhile_cons]
    split
    · exact List.nil_prefix
    · rcases ih with ⟨k, hk⟩
      exact ⟨k, by rw [List.cons_append, hk]⟩

theorem pyLstrip_head {s : List Char} :
    ∀ c, (pyLstrip s).head? = some c → pyIsSpace c = false := by
  induction s with
  | nil => simp [pyLstrip]
  | cons c t ih =>
    intro d hd
    by_cases hc : pyIsSpace c = true
    · exact ih d (by simpa [pyLstrip, List.dropWhile_cons, hc] using hd)
    · simp only [pyLstrip, List.dropWhile_cons] at hd
      rw [if_neg (by simpa using hc)] at hd
      simp only [List.head?_cons, Option.some.injEq] at hd
      subst hd
      simpa using hc

theorem dropWhile_eq_self_of_head {p : Char → Bool} {s : List Char}
    (h : ∀ c, s.head? = some c → p c = false) : s.dropWhile p = s := by
  cases s with
  | nil => rfl
  | cons c t => simp [List.dropWhile_cons, h c rfl]

theorem pyStrip_lstrip (s : List Char) : pyLstrip (pyStrip s) = pyStrip s := by
  by_cases h : pyStrip s = []
  · rw [h]; rfl
  · refine dropWhile_eq_self_of_head ?_
    intro c hc
    have hh : (rstripWhile pyIsSpace (pyLstrip s)).head? = (pyLstrip s).head? :=
      rstripWhile_head h
    exact pyLstrip_head c (hh ▸ hc)

theorem pyStrip_idem (s : List Char) : pyStrip (pyStrip s) = pyStrip s := by
  show rstripWhile pyIsSpace (pyLstrip (pyStrip s)) = pyStrip s
  rw [pyStrip_lstrip]
  exact rstripWhile_idem _ _

theorem pyStrip_getLast {s : List Char} :
    ∀ c, (pyStrip s).getLast? = some c → pyIsSpace c = false :=
  fun c hc => rstripWhile_getLast c hc

theorem pyStrip_decomp (s : List Char) :
    ∃ sp1 sp2, (∀ c ∈ sp1, pyIsSpace c = true) ∧ (∀ c ∈ sp2, pyIsSpace c = true) ∧
      s = sp1 ++ pyStrip s ++ sp2 := by
  rcases rstripWhile_decomp pyIsSpace (pyLstrip s) with ⟨r, hr, hall⟩
  refine ⟨s.takeWhile pyIsSpace, r, fun c hc => List.mem_takeWhile_imp hc, hall, ?_⟩
  have h1 : s = s.takeWhile pyIsSpace ++ pyLstrip s :=
    (List.takeWhile_append_dropWhile (p := pyIsSpace) (l := s)).symm
  rw [List.append_assoc]
  conv_lhs => rw [h1, hr]
  rfl

theorem pyStrip_sublist (s : List Char) : List.Sublist (pyStrip s) s :=
  ((rstripWhile_pref pyIsSpace (pyLstrip s)).sublist).trans
    (List.dropWhile_sublist pyIsSpace)

theorem mem_pyStrip {c : Char} {s : List Char} (h : c ∈ pyStrip s) : c ∈ s :=
  (pyStrip_sublist s).subset h

theorem mem_cleanOnce {c : Char} {sql : List Char} (h : c ∈ cleanOnce sql) : c ∈ sql := by
  unfold cleanOnce at h
  split at h
  · exact mem_pyStrip ((List.dropLast_sublist _).subset h)
  · exact mem_pyStrip h

/-! ### Case folding commutes with trimming -/

theorem foldText_lstrip (s : List Char) :
    foldText (pyLstrip s) = pyLstrip (foldText s) := by
  unfold foldText pyLstrip
  rw [List.dropWhile_map,
    show pyIsSpace ∘ pyLowerChar = pyIsSpace from funext pyLowerChar_space]

theorem rstripWhile_map {p : Char → Bool} {f : Char → Char}
    (hf : ∀ c, p (f c) = p c) (s : List Char) :
    rstripWhile p (s.map f) = (rstripWhile p s).map f := by
  induction s with
  | nil => rfl
  | cons c t ih =>
    have he : ∀ x : List Char, (x.map f).isEmpty = x.isEmpty := by
      intro x; cases x <;> rfl
    simp only [List.map_cons, rstripWhile, ih, he, hf]
    split <;> simp

theorem foldText_strip (s : List Char) :
    foldText (pyStrip s) = pyStrip (foldText s) := by
  show foldText (rstripWhile pyIsSpace (pyLstrip s)) = rstripWhile pyIsSpace (pyLstrip (foldText s))
  rw [← foldText_lstrip]
  show foldText (rstripWhile pyIsSpace (pyLstrip s)) = rstripWhile pyIsSpace (foldText (pyLstrip s))
  unfold foldText
  rw [rstripWhile_map pyLowerChar_space]

/-! ### Facts about `eatWord`, `isPref`, `containsSub` -/

theorem eatWord_eq_some {w : List Char} : ∀ {s r : List Char},
    eatWord w s = some r ↔ s = w ++ r := by
  induction w with
  | nil => intro s r; simp [eatWord]
  | cons x w ih =>
    intro s r
    cases s with
    | nil => simp [eatWord]
    | cons c s' =>
      simp only [eatWord, List.cons_append]
      by_cases hx : x = c
      · subst hx
        rw [if_pos rfl, ih]
        simp
      · rw [if_neg hx]
        constructor
        · intro h; cases h
        · intro h; injection h with h1 _; exact absurd h1.symm hx

theorem isPref_iff {w s : List Char} : isPref w s = true ↔ ∃ r, s = w ++ r := by
  constructor
  · intro hp
    cases h : eatWord w s with
    | none => rw [isPref, h] at hp; cases hp
    | some r => exact ⟨r, eatWord_eq_some.mp h⟩
  · rintro ⟨r, rfl⟩
    rw [isPref, eatWord_eq_some.mpr rfl]
    rfl

theorem eatWord_sep {w : List Char} {d : Char} (hd : d ∉ w) (b : List Char) :
    ∀ a, eatWord w (a ++ d :: b) = (eatWord w a).map (· ++ d :: b) := by
  induction w with
  | nil => intro a; rfl
  | cons x w ih =>
    intro a
    cases a with
    | nil =>
      have hxd : ¬ x = d := fun h => hd (h ▸ List.mem_cons_self x w)
      simp [eatWord, hxd]
    | cons c a' =>
      by_cases hx : x = c
      · subst hx
        simp [eatWord, ih (fun h => hd (List.mem_cons_of_mem _ h)) a']
      · simp [eatWord, hx]

theorem eatWord_spaces {w : List Char} (hw : ∀ c ∈ w, pyIsSpace c = false)
    {sp2 : List Char} (hsp : ∀ c ∈ sp2, pyIsSpace c = true) :
    ∀ a, eatWord w (a ++ sp2) = (eatWord w a).map (· ++ sp2) := by
  induction w with
  | nil => intro a; rfl
  | cons x w ih =>
    intro a
    cases a with
    | nil =>
      cases sp2 with
      | nil => simp [eatWord]
      | cons e sp' =>
        have hxe : ¬ x = e := by
          intro h
          have h1 := hw x (List.mem_cons_self _ _)
          have h2 := hsp e (List.mem_cons_self _ _)
          rw [h, h2] at h1
          cases h1
        simp [eatWord, hxe]
    | cons c a' =>
      by_cases hx : x = c
      · subst hx
        simp [eatWord, ih (fun c hc => hw c (List.mem_cons_of_mem _ hc)) a']
      · simp [eatWord, hx]

theorem isPref_sep {w : List Char} {d : Char} (hd : d ∉ w) (a b : List Char) :
    isPref w (a ++ d :: b) = isPref w a := by
  unfold isPref
  rw [eatWord_sep hd b a]
  cases eatWord w a <;> rfl

theorem isPref_spaces {w : List Char} (hw : ∀ c ∈ w, pyIsSpace c = false)
    {sp2 : List Char} (hsp : ∀ c ∈ sp2, pyIsSpace c = true) (a : List Char) :
    isPref w (a ++ sp2) = isPref w a := by
  unfold isPref
  rw [eatWord_spaces hw hsp a]
  cases eatWord w a <;> rfl

theorem containsSub_iff {t s : List Char} :
    containsSub t s = true ↔ ∃ u v, s = u ++ t ++ v := by
  induction s with
  | nil =>
    constructor
    · intro h
      exact ⟨[], [], by simp [List.isEmpty_iff.mp h]⟩
    · rintro ⟨u, v, h⟩
      rcases List.append_eq_nil.mp h.symm with ⟨h1, h2⟩
      rcases List.append_eq_nil.mp h1 with ⟨_, h3⟩
      show t.isEmpty = true
      rw [h3]
      rfl
  | cons c s' ih =>
    simp only [containsSub, Bool.or_eq_true, ih, isPref_iff]
    constructor
    · rintro (⟨r, hr⟩ | ⟨u, v, hv⟩)
      · exact ⟨[], r, by simp [hr]⟩
      · exact ⟨c :: u, v, by simp [hv]⟩
    · rintro ⟨u, v, hv⟩
      cases u with
      | nil => exact Or.inl ⟨v, by simpa using hv⟩
      | cons x u' =>
        rw [List.cons_append, List.cons_append] at hv
        injection hv with _ h2
        exact Or.inr ⟨u', v, h2⟩

theorem containsSub_sep {t : List Char} (ht : t ≠ []) {d : Char} (hd : d ∉ t)
    (a b : List Char) :
    containsSub t (a ++ d :: b) = (containsSub t a || containsSub t b) := by
  have hte : t.isEmpty = false := by
    cases t
    · exact absurd rfl ht
    · rfl
  induction a with
  | nil =>
    have hp : isPref t (d :: b) = false := by
      cases t with
      | nil => exact absurd rfl ht
      | cons x t' =>
        have hxd : ¬ x = d := fun h => hd (h ▸ List.mem_cons_self _ _)
        simp [isPref, eatWord, hxd]
    have e1 : containsSub t ([] ++ d :: b) = (isPref t (d :: b) || containsSub t b) := rfl
    have e3 : containsSub t ([] : List Char) = t.isEmpty := rfl
    rw [e1, hp, e3, hte]
  | cons c a' ih =>
    have e1 : containsSub t ((c :: a') ++ d :: b)
        = (isPref t ((c :: a') ++ d :: b) || containsSub t (a' ++ d :: b)) := rfl
    have e2 : containsSub t (c :: a') = (isPref t (c :: a') || containsSub t a') := rfl
    rw [e1, e2, isPref_sep hd (c :: a') b, ih, Bool.or_assoc]

theorem containsSub_strip_false {t s : List Char} (h : containsSub t s = false) :
    containsSub t (pyStrip s) = false := by
  cases hc : containsSub t (pyStrip s) with
  | false => rfl
  | true =>
    exfalso
    rcases containsSub_iff.mp hc with ⟨u, v, huv⟩
    rcases pyStrip_decomp s with ⟨sp1, sp2, _, _, hs⟩
    have : containsSub t s = true := by
      refine containsSub_iff.mpr ⟨sp1 ++ u, v ++ sp2, ?_⟩
      rw [hs, huv]
      simp [List.append_assoc]
    rw [h] at this
    cases this

theorem containsSub_singleton {c : Char} {s : List Char} :
    containsSub [c] s = true ↔ c ∈ s := by
  induction s with
  | nil => simp [containsSub]
  | cons x rest ih =>
    simp only [containsSub, Bool.or_eq_true, ih]
    constructor
    · rintro (h | h)
      · rcases isPref_iff.mp h with ⟨r, hr⟩
        injection hr with h1 _
        exact List.mem_cons.mpr (Or.inl h1.symm)
      · exact List.mem_cons_of_mem _ h
    · intro h
      rcases List.mem_cons.mp h with rfl | h
      · exact Or.inl (isPref_iff.mpr ⟨rest, rfl⟩)
      · exact Or.inr h

/-! ### Facts about `chainHere` -/

theorem wordsOK_head {w : List Char} {ws : List (List Char)} (h : wordsOK w ws = true) :
    w ≠ [] ∧ ∀ c ∈ w, isWordChar c = true := by
  have h1 : goodWord w = true := by
    unfold wordsOK at h
    rw [List.all_cons, Bool.and_eq_true] at h
    exact h.1
  unfold goodWord at h1
  rw [Bool.and_eq_true] at h1
  refine ⟨?_, fun c hc => List.all_eq_true.mp h1.2 c hc⟩
  intro he
  rw [he] at h1
  exact absurd h1.1 (by simp)

theorem wordsOK_tail {w w2 : List Char} {ws : List (List Char)}
    (h : wordsOK w (w2 :: ws) = true) : wordsOK w2 ws = true := by
  unfold wordsOK at h ⊢
  rw [List.all_cons, Bool.and_eq_true] at h
  exact h.2

theorem wordsOK_not_mem {w : List Char} {ws : List (List Char)} {d : Char}
    (h : wordsOK w ws = true) (hd : isWordChar d = false) : d ∉ w := by
  intro hm
  rw [(wordsOK_head h).2 d hm] at hd
  cases hd

theorem chainHere_none {w : List Char} {ws : List (List Char)} {s : List Char}
    (h : eatWord w s = none) : chainHere w ws s = false := by
  unfold chainHere
  rw [h]

theorem chainHere_some_nil {w s r : List Char} (h : eatWord w s = some r) :
    chainHere w [] s = wordBoundary r := by
  unfold chainHere
  rw [h]

theorem chainHere_some_none {w w2 s r : List Char} {ws : List (List Char)}
    (h : eatWord w s = some r) (h2 : eatSpaces1 r = none) :
    chainHere w (w2 :: ws) s = false := by
  unfold chainHere
  rw [h]
  show (match eatSpaces1 r with
    | none => false
    | some r2 => chainHere w2 ws r2) = false
  rw [h2]

theorem chainHere_some_some {w w2 s r r2 : List Char} {ws : List (List Char)}
    (h : eatWord w s = some r) (h2 : eatSpaces1 r = some r2) :
    chainHere w (w2 :: ws) s = chainHere w2 ws r2 := by
  conv_lhs => rw [chainHere]
  rw [h]
  show (match eatSpaces1 r with
    | none => false
    | some r2 => chainHere w2 ws r2) = chainHere w2 ws r2
  rw [h2]

theorem chainHere_nonword_head {w : List Char} {ws : List (List Char)}
    (hok : wordsOK w ws = true) {c : Char} (hc : isWordChar c = false)
    (t : List Char) : chainHere w ws (c :: t) = false := by
  rcases wordsOK_head hok with ⟨hne, hall⟩
  cases w with
  | nil => exact absurd rfl hne
  | cons x w' =>
    have hxc : ¬ x = c := by
      intro h
      have hx := hall x (List.mem_cons_self _ _)
      rw [h, hc] at hx
      cases hx
    exact chainHere_none (by simp [eatWord, hxc])

theorem dropWhile_sep {p : Char → Bool} {d : Char} (hd : p d = false)
    (A b : List Char) :
    List.dropWhile p (A ++ d :: b) = List.dropWhile p A ++ d :: b := by
  rw [List.dropWhile_append]
  split
  · next h =>
    rw [List.isEmpty_iff.mp h, List.nil_append]
    simp [List.dropWhile_cons, hd]
  · rfl

theorem dropWhile_eq_nil_of_all {p : Char → Bool} {l : List Char}
    (h : ∀ c ∈ l, p c = true) : l.dropWhile p = [] := by
  induction l with
  | nil => rfl
  | cons c t ih =>
    rw [List.dropWhile_cons, if_pos (h c (List.mem_cons_self _ _))]
    exact ih fun c hc => h c (List.mem_cons_of_mem _ hc)

theorem eatSpaces1_sep {d : Char} (hd : pyIsSpace d = false) (A b : List Char) :
    eatSpaces1 (A ++ d :: b) = (eatSpaces1 A).map (· ++ d :: b) := by
  cases A with
  | nil => simp [eatSpaces1, hd]
  | cons c A' =>
    by_cases hc : pyIsSpace c = true
    · simp [eatSpaces1, hc, dropWhile_sep hd]
    · simp [eatSpaces1, hc]

theorem chainHere_sep {d : Char} (hwc : isWordChar d = false)
    (hsp : pyIsSpace d = false) :
    ∀ w ws, wordsOK w ws = true → ∀ A b,
      chainHere w ws (A ++ d :: b) = chainHere w ws A := by
  intro w ws
  induction ws generalizing w with
  | nil =>
    intro hok A b
    have hd : d ∉ w := wordsOK_not_mem hok hwc
    cases hE : eatWord w A with
    | none =>
      rw [chainHere_none hE,
        chainHere_none (by rw [eatWord_sep hd b A, hE]; rfl)]
    | some ra =>
      rw [chainHere_some_nil hE,
        chainHere_some_nil (r := ra ++ d :: b) (by rw [eatWord_sep hd b A, hE]; rfl)]
      cases ra with
      | nil => simp [wordBoundary, hwc]
      | cons e t => rfl
  | cons w2 ws' ih =>
    intro hok A b
    have hd : d ∉ w := wordsOK_not_mem hok hwc
    cases hE : eatWord w A with
    | none =>
      rw [chainHere_none hE,
        chainHere_none (by rw [eatWord_sep hd b A, hE]; rfl)]
    | some ra =>
      have hE' : eatWord w (A ++ d :: b) = some (ra ++ d :: b) := by
        rw [eatWord_sep hd b A, hE]; rfl
      cases hS : eatSpaces1 ra with
      | none =>
        rw [chainHere_some_none hE hS,
          chainHere_some_none hE' (by rw [eatSpaces1_sep hsp ra b, hS]; rfl)]
      | some r2 =>
        rw [chainHere_some_some hE hS,
          chainHere_some_some hE' (by rw [eatSpaces1_sep hsp ra b, hS]; rfl)]
        exact ih w2 (wordsOK_tail hok) r2 b

theorem chainHere_spaces {sp2 : List Char} (hsp2 : ∀ c ∈ sp2, pyIsSpace c = true) :
    ∀ w ws, wordsOK w ws = true → ∀ A,
      chainHere w ws (A ++ sp2) = chainHere w ws A := by
  intro w ws
  induction ws generalizing w with
  | nil =>
    intro hok A
    have hw : ∀ c ∈ w, pyIsSpace c = false :=
      fun c hc => word_not_space ((wordsOK_head hok).2 c hc)
    cases hE : eatWord w A with
    | none =>
      rw [chainHere_none hE,
        chainHere_none (by rw [eatWord_spaces hw hsp2 A, hE]; rfl)]
    | some ra =>
      rw [chainHere_some_nil hE,
        chainHere_some_nil (r := ra ++ sp2) (by rw [eatWord_spaces hw hsp2 A, hE]; rfl)]
      cases ra with
      | nil =>
        cases sp2 with
        | nil => rfl
        | cons e sp' =>
          have : isWordChar e = false :=
            space_not_word (hsp2 e (List.mem_cons_self _ _))
          simp [wordBoundary, this]
      | cons e t => rfl
  | cons w2 ws' ih =>
    intro hok A
    have hw : ∀ c ∈ w, pyIsSpace c = false :=
      fun c hc => word_not_space ((wordsOK_head hok).2 c hc)
    have hok2 : wordsOK w2 ws' = true := wordsOK_tail hok
    have hw2ne : w2 ≠ [] := (wordsOK_head hok2).1
    have hnil2 : chainHere w2 ws' [] = false := by
      cases w2 with
      | nil => exact absurd rfl hw2ne
      | cons x w2' => exact chainHere_none rfl
    cases hE : eatWord w A with
    | none =>
      rw [chainHere_none hE,
        chainHere_none (by rw [eatWord_spaces hw hsp2 A, hE]; rfl)]
    | some ra =>
      have hE' : eatWord w (A ++ sp2) = some (ra ++ sp2) := by
        rw [eatWord_spaces hw hsp2 A, hE]; rfl
      cases ra with
      | nil =>
        cases sp2 with
        | nil =>
          cases hS : eatSpaces1 ([] : List Char) with
          | none => rw [chainHere_some_none hE hS, chainHere_some_none hE' (by simpa using hS)]
          | some r2 => cases hS
        | cons e sp' =>
          have he : pyIsSpace e = true := hsp2 e (List.mem_cons_self _ _)
          have hS' : eatSpaces1 (([] : List Char) ++ e :: sp') = some (sp'.dropWhile pyIsSpace) := by
            simp [eatSpaces1, he]
          have hdrop : sp'.dropWhile pyIsSpace = [] :=
            dropWhile_eq_nil_of_all fun c hc => hsp2 c (List.mem_cons_of_mem _ hc)
          rw [chainHere_some_none hE rfl, chainHere_some_some hE' (by simpa [hdrop] using hS')]
          rw [hnil2]
      | cons e ra' =>
        by_cases he : pyIsSpace e = true
        · have hS : eatSpaces1 (e :: ra') = some (ra'.dropWhile pyIsSpace) := by
            simp [eatSpaces1, he]
          have hS' : eatSpaces1 ((e :: ra') ++ sp2)
              = some ((ra' ++ sp2).dropWhile pyIsSpace) := by
            simp [eatSpaces1, he]
          rw [chainHere_some_some hE hS, chainHere_some_some hE' hS']
          rw [List.dropWhile_append]
          split
          · next hemp =>
            rw [List.isEmpty_iff.mp hemp,
              dropWhile_eq_nil_of_all hsp2, hnil2]
          · exact ih w2 hok2 (ra'.dropWhile pyIsSpace)
        · have he' : pyIsSpace e = false := by simpa using he
          rw [chainHere_some_none hE (by simp [eatSpaces1, he']),
            chainHere_some_none hE' (by simp [eatSpaces1, he'])]

/-! ### Facts about `searchChain`, `countChain`, `searchPat` -/

theorem any_congr {α : Type} {l : List α} {f g : α → Bool}
    (h : ∀ x ∈ l, f x = g x) : l.any f = l.any g := by
  induction l with
  | nil => rfl
  | cons x t ih =>
    rw [List.any_cons, List.any_cons, h x (List.mem_cons_self _ _),
      ih fun y hy => h y (List.mem_cons_of_mem _ hy)]

theorem any_or_split {α : Type} {l : List α} {f g h : α → Bool}
    (hfg : ∀ x ∈ l, f x = (g x || h x)) : l.any f = (l.any g || l.any h) := by
  induction l with
  | nil => rfl
  | cons x t ih =>
    rw [List.any_cons, List.any_cons, List.any_cons,
      hfg x (List.mem_cons_self _ _),
      ih fun y hy => hfg y (List.mem_cons_of_mem _ hy)]
    cases g x <;> cases h x <;> simp

theorem searchChainAux_allspace {w : List Char} {ws : List (List Char)}
    (hok : wordsOK w ws = true) {s : List Char}
    (hs : ∀ c ∈ s, pyIsSpace c = true) : ∀ p, searchChainAux w ws p s = false := by
  induction s with
  | nil => intro p; rfl
  | cons c rest ih =>
    intro p
    show ((p && chainHere w ws (c :: rest))
      || searchChainAux w ws (!isWordChar c) rest) = false
    rw [chainHere_nonword_head hok
      (space_not_word (hs c (List.mem_cons_self _ _))) rest,
      ih (fun d hd => hs d (List.mem_cons_of_mem _ hd)) (!isWordChar c)]
    simp

theorem searchChainAux_sep {w : List Char} {ws : List (List Char)} {d : Char}
    (hok : wordsOK w ws = true) (hwc : isWordChar d = false)
    (hsp : pyIsSpace d = false) (b : List Char) : ∀ A p,
    searchChainAux w ws p (A ++ d :: b)
      = (searchChainAux w ws p A || searchChain w ws b) := by
  intro A
  induction A with
  | nil =>
    intro p
    show ((p && chainHere w ws (d :: b)) || searchChainAux w ws (!isWordChar d) b)
      = (false || searchChain w ws b)
    rw [chainHere_nonword_head hok hwc b, hwc]
    simp [searchChain]
  | cons c A' ih =>
    intro p
    show ((p && chainHere w ws (c :: (A' ++ d :: b)))
        || searchChainAux w ws (!isWordChar c) (A' ++ d :: b))
      = (((p && chainHere w ws (c :: A')) || searchChainAux w ws (!isWordChar c) A')
        || searchChain w ws b)
    rw [show c :: (A' ++ d :: b) = (c :: A') ++ d :: b from rfl,
      chainHere_sep hwc hsp w ws hok (c :: A') b, ih (!isWordChar c),
      Bool.or_assoc]

theorem searchChainAux_spaces {w : List Char} {ws : List (List Char)}
    (hok : wordsOK w ws = true) {sp2 : List Char}
    (hsp2 : ∀ c ∈ sp2, pyIsSpace c = true) : ∀ A p,
    searchChainAux w ws p (A ++ sp2) = searchChainAux w ws p A := by
  intro A
  induction A with
  | nil =>
    intro p
    exact searchChainAux_allspace hok hsp2 p
  | cons c A' ih =>
    intro p
    show ((p && chainHere w ws (c :: (A' ++ sp2)))
        || searchChainAux w ws (!isWordChar c) (A' ++ sp2))
      = ((p && chainHere w ws (c :: A')) || searchChainAux w ws (!isWordChar c) A')
    rw [show c :: (A' ++ sp2) = (c :: A') ++ sp2 from rfl,
      chainHere_spaces hsp2 w ws hok (c :: A'), ih (!isWordChar c)]

theorem searchChain_spaces_pre {w : List Char} {ws : List (List Char)}
    (hok : wordsOK w ws = true) {sp1 : List Char}
    (hsp1 : ∀ c ∈ sp1, pyIsSpace c = true) (t : List Char) :
    searchChain w ws (sp1 ++ t) = searchChain w ws t := by
  induction sp1 with
  | nil => rfl
  | cons c sp' ih =>
    have hc := hsp1 c (List.mem_cons_self _ _)
    show ((true && chainHere w ws (c :: (sp' ++ t)))
        || searchChainAux w ws (!isWordChar c) (sp' ++ t)) = searchChain w ws t
    rw [chainHere_nonword_head hok (space_not_word hc) (sp' ++ t),
      space_not_word hc]
    simp only [Bool.and_false, Bool.false_or, Bool.not_false]
    exact ih fun d hd => hsp1 d (List.mem_cons_of_mem _ hd)

theorem searchChain_strip (w : List Char) (ws : List (List Char))
    (hok : wordsOK w ws = true) (s : List Char) :
    searchChain w ws (pyStrip s) = searchChain w ws s := by
  rcases pyStrip_decomp s with ⟨sp1, sp2, h1, h2, hs⟩
  conv_rhs => rw [hs]
  rw [List.append_assoc, searchChain_spaces_pre hok h1 (pyStrip s ++ sp2)]
  exact (searchChainAux_spaces hok h2 (pyStrip s) true).symm

theorem countChainAux_sep {w : List Char} {ws : List (List Char)} {d : Char}
    (hok : wordsOK w ws = true) (hwc : isWordChar d = false)
    (hsp : pyIsSpace d = false) (b : List Char) : ∀ A p,
    countChainAux w ws p (A ++ d :: b)
      = countChainAux w ws p A + countChain w ws b := by
  intro A
  induction A with
  | nil =>
    intro p
    show ((if p && chainHere w ws (d :: b) then 1 else 0)
        + countChainAux w ws (!isWordChar d) b)
      = 0 + countChain w ws b
    rw [chainHere_nonword_head hok hwc b, hwc]
    simp [countChain]
  | cons c A' ih =>
    intro p
    show ((if p && chainHere w ws (c :: (A' ++ d :: b)) then 1 else 0)
        + countChainAux w ws (!isWordChar c) (A' ++ d :: b))
      = ((if p && chainHere w ws (c :: A') then 1 else 0)
          + countChainAux w ws (!isWordChar c) A') + countChain w ws b
    rw [show c :: (A' ++ d :: b) = (c :: A') ++ d :: b from rfl,
      chainHere_sep hwc hsp w ws hok (c :: A') b, ih (!isWordChar c)]
    omega

theorem countChainAux_zero_iff {w : List Char} {ws : List (List Char)} :
    ∀ {s : List Char} {p : Bool},
      countChainAux w ws p s = 0 ↔ searchChainAux w ws p s = false := by
  intro s
  induction s with
  | nil => intro p; simp [countChainAux, searchChainAux]
  | cons c rest ih =>
    intro p
    show ((if p && chainHere w ws (c :: rest) then 1 else 0)
        + countChainAux w ws (!isWordChar c) rest = 0)
      ↔ (((p && chainHere w ws (c :: rest))
        || searchChainAux w ws (!isWordChar c) rest) = false)
    cases hb : p && chainHere w ws (c :: rest) with
    | false => simpa using ih
    | true => simp

theorem searchPat_sep {pat : Pat} (h : patOK pat = true) {d : Char}
    (hwc : isWordChar d = false) (hsp : pyIsSpace d = false) (A b : List Char) :
    searchPat pat (A ++ d :: b) = (searchPat pat A || searchPat pat b) := by
  cases pat with
  | word w => exact searchChainAux_sep h hwc hsp b A true
  | chain2 w1 w2 => exact searchChainAux_sep h hwc hsp b A true

theorem searchPat_strip {pat : Pat} (h : patOK pat = true) (s : List Char) :
    searchPat pat (pyStrip s) = searchPat pat s := by
  cases pat with
  | word w => exact searchChain_strip w [] h s
  | chain2 w1 w2 => exact searchChain_strip w1 [w2] h s

theorem allPats_ok : ∀ pat ∈ FORBIDDEN_PATTERNS, patOK pat = true := by decide

theorem forbiddenHit_sep {d : Char} (hwc : isWordChar d = false)
    (hsp : pyIsSpace d = false) (A b : List Char) :
    forbiddenHit (A ++ d :: b) = (forbiddenHit A || forbiddenHit b) :=
  any_or_split fun pat hp => searchPat_sep (allPats_ok pat hp) hwc hsp A b

theorem forbiddenHit_strip (s : List Char) :
    forbiddenHit (pyStrip s) = forbiddenHit s :=
  any_congr fun pat hp => searchPat_strip (allPats_ok pat hp) s

theorem startsWithAny_spaces {ps : List (List Char)}
    (hps : ∀ p ∈ ps, ∀ c ∈ p, pyIsSpace c = false) {sp2 : List Char}
    (hsp2 : ∀ c ∈ sp2, pyIsSpace c = true) (a : List Char) :
    startsWithAny ps (a ++ sp2) = startsWithAny ps a :=
  any_congr fun p hp => isPref_spaces (hps p hp) hsp2 a

theorem startsWithAny_strip_lstrip {ps : List (List Char)}
    (hps : ∀ p ∈ ps, ∀ c ∈ p, pyIsSpace c = false) (y : List Char) :
    startsWithAny ps (pyStrip y) = startsWithAny ps (pyLstrip y) := by
  rcases rstripWhile_decomp pyIsSpace (pyLstrip y) with ⟨r, hr, hall⟩
  conv_rhs => rw [hr]
  exact (startsWithAny_spaces hps hall (pyStrip y)).symm

theorem isPref_strip_lstrip {w : List Char} (hw : ∀ c ∈ w, pyIsSpace c = false)
    (y : List Char) : isPref w (pyStrip y) = isPref w (pyLstrip y) := by
  rcases rstripWhile_decomp pyIsSpace (pyLstrip y) with ⟨r, hr, hall⟩
  conv_rhs => rw [hr]
  exact (isPref_spaces hw hall (pyStrip y)).symm

theorem allowedVerbs_nospace : ∀ p ∈ allowedVerbs, ∀ c ∈ p, pyIsSpace c = false := by
  decide

/-! ### Inversion of `_validate_sql` -/

theorem bool_ne_false {b : Bool} (h : ¬ b = false) : b = true := by
  cases b
  · exact absurd rfl h
  · rfl

set_option maxHeartbeats 1000000
set_option maxRecDepth 8000

theorem validate_ok_eq {sql v : List Char} (h : _validate_sql sql = .ok v) :
    v = cleanOnce sql := by
  unfold _validate_sql at h
  split_ifs at h
  · injection h with h
    exact h.symm

theorem validate_ok_conditions {sql v : List Char} (h : _validate_sql sql = .ok v) :
    (pyStrip sql).isEmpty = false
    ∧ containsSub ";".data (foldText (cleanOnce sql)) = false
    ∧ startsWithAny allowedVerbs (pyLstrip (foldText (cleanOnce sql))) = true
    ∧ containsSub "/etc/".data (foldText (cleanOnce sql)) = false
    ∧ containsSub "..".data (foldText (cleanOnce sql)) = false
    ∧ forbiddenHit (foldText (cleanOnce sql)) = false
    ∧ searchChain "join".data [] (foldText (cleanOnce sql)) = false
    ∧ (searchChain "from".data [] (foldText (cleanOnce sql)) = true →
        searchChain "from".data ["tablename".data] (foldText (cleanOnce sql)) = true)
    ∧ (isPref "update ".data (foldText (cleanOnce sql)) = true →
        chainHere "update".data ["tablename".data] (foldText (cleanOnce sql)) = true)
    ∧ (isPref "delete ".data (foldText (cleanOnce sql)) = true →
        chainHere "delete".data ["from".data, "tablename".data]
          (foldText (cleanOnce sql)) = true)
    ∧ (isPref "insert ".data (foldText (cleanOnce sql)) = true →
        chainHere "insert".data ["into".data, "tablename".data]
          (foldText (cleanOnce sql)) = true) := by
  unfold _validate_sql at h
  split_ifs at h with h1 h2 h3 h4 h5 h6 h7 h8 h9 h10
  simp only [Bool.not_eq_true', Bool.not_eq_true] at h1 h3
  simp only [Bool.or_eq_true, not_or, Bool.not_eq_true] at h4
  simp only [Bool.and_eq_true, not_and, Bool.not_eq_true', Bool.not_eq_true] at h7 h8 h9 h10
  refine ⟨h1, ?_, bool_ne_false h3, h4.1, h4.2, ?_, ?_,
    fun ha => bool_ne_false (h7 ha), fun ha => bool_ne_false (h8 ha),
    fun ha => bool_ne_false (h9 ha), fun ha => bool_ne_false (h10 ha)⟩
  · exact Bool.eq_false_iff.mpr h2
  · exact Bool.eq_false_iff.mpr h5
  · exact Bool.eq_false_iff.mpr h6

theorem validate_ok_intro {sql : List Char}
    (h1 : (pyStrip sql).isEmpty = false)
    (h2 : containsSub ";".data (foldText (cleanOnce sql)) = false)
    (h3 : startsWithAny allowedVerbs (pyLstrip (foldText (cleanOnce sql))) = true)
    (h4 : containsSub "/etc/".data (foldText (cleanOnce sql)) = false)
    (h5 : containsSub "..".data (foldText (cleanOnce sql)) = false)
    (h6 : forbiddenHit (foldText (cleanOnce sql)) = false)
    (h7 : searchChain "join".data [] (foldText (cleanOnce sql)) = false)
    (h8 : searchChain "from".data [] (foldText (cleanOnce sql)) = true →
        searchChain "from".data ["tablename".data] (foldText (cleanOnce sql)) = true)
    (h9 : isPref "update ".data (foldText (cleanOnce sql)) = true →
        chainHere "update".data ["tablename".data] (foldText (cleanOnce sql)) = true)
    (h10 : isPref "delete ".data (foldText (cleanOnce sql)) = true →
        chainHere "delete".data ["from".data, "tablename".data]
          (foldText (cleanOnce sql)) = true)
    (h11 : isPref "insert ".data (foldText (cleanOnce sql)) = true →
        chainHere "insert".data ["into".data, "tablename".data]
          (foldText (cleanOnce sql)) = true) :
    _validate_sql sql = .ok (cleanOnce sql) := by
  have hc7 : (searchChain "from".data [] (foldText (cleanOnce sql))
      && !searchChain "from".data ["tablename".data] (foldText (cleanOnce sql))) = false := by
    cases hf : searchChain "from".data [] (foldText (cleanOnce sql))
    · rfl
    · rw [h8 hf]; rfl
  have hc8 : (isPref "update ".data (foldText (cleanOnce sql))
      && !chainHere "update".data ["tablename".data] (foldText (cleanOnce sql))) = false := by
    cases hf : isPref "update ".data (foldText (cleanOnce sql))
    · rfl
    · rw [h9 hf]; rfl
  have hc9 : (isPref "delete ".data (foldText (cleanOnce sql))
      && !chainHere "delete".data ["from".data, "tablename".data]
        (foldText (cleanOnce sql))) = false := by
    cases hf : isPref "delete ".data (foldText (cleanOnce sql))
    · rfl
    · rw [h10 hf]; rfl
  have hc10 : (isPref "insert ".data (foldText (cleanOnce sql))
      && !chainHere "insert".data ["into".data, "tablename".data]
        (foldText (cleanOnce sql))) = false := by
    cases hf : isPref "insert ".data (foldText (cleanOnce sql))
    · rfl
    · rw [h11 hf]; rfl
  unfold _validate_sql
  rw [h1, h2, h3, h4, h5, h6, h7, hc7, hc8, hc9, hc10]
  simp

theorem validate_from_error {sql : List Char}
    (h1 : (pyStrip sql).isEmpty = false)
    (h2 : containsSub ";".data (foldText (cleanOnce sql)) = false)
    (h3 : startsWithAny allowedVerbs (pyLstrip (foldText (cleanOnce sql))) = true)
    (h4 : containsSub "/etc/".data (foldText (cleanOnce sql)) = false)
    (h5 : containsSub "..".data (foldText (cleanOnce sql)) = false)
    (h6 : forbiddenHit (foldText (cleanOnce sql)) = false)
    (h7 : searchChain "join".data [] (foldText (cleanOnce sql)) = false)
    (h8 : searchChain "from".data [] (foldText (cleanOnce sql)) = true)
    (h9 : searchChain "from".data ["tablename".data] (foldText (cleanOnce sql)) = false) :
    _validate_sql sql = .error ⟨400, fromDetail⟩ := by
  unfold _validate_sql
  rw [h1, h2, h3, h4, h5, h6, h7, h8, h9]
  simp

theorem validate_multiple {sql : List Char} (h : (';' : Char) ∈ cleanOnce sql) :
    _validate_sql sql = .error ⟨400, multipleDetail⟩ := by
  have hne : cleanOnce sql ≠ [] := by
    intro he
    rw [he] at h
    cases h
  have hstrip : (pyStrip sql).isEmpty = false := by
    cases hs : pyStrip sql with
    | nil =>
      exfalso
      apply hne
      unfold cleanOnce
      rw [hs]
      simp
    | cons a t => rfl
  have hsemi : containsSub ";".data (foldText (cleanOnce sql)) = true := by
    apply containsSub_singleton.mpr
    have hm := List.mem_map_of_mem pyLowerChar h
    have h2 : pyLowerChar ';' = ';' := rfl
    rw [h2] at hm
    exact hm
  unfold _validate_sql
  rw [hstrip, hsemi]
  simp

theorem validate_empty {sql : List Char} (h : pyStrip sql = []) :
    _validate_sql sql = .error ⟨400, emptyDetail⟩ := by
  unfold _validate_sql
  rw [h]
  simp

theorem validate_error_inv {sql : List Char} {e : HTTPError}
    (h : _validate_sql sql = .error e) :
    e.status_code = 400 ∧ e.detail ∈ allDetails := by
  unfold _validate_sql at h
  split_ifs at h <;> injection h with h <;> cases h <;>
    exact ⟨rfl, by simp [allDetails]⟩

/-! ### Derived facts about accepted statements -/

theorem not_semi_of_contains {v : List Char}
    (h : containsSub ";".data (foldText v) = false) : (';' : Char) ∉ v := by
  intro hm
  have hmem : (';' : Char) ∈ foldText v := by
    have h2 := List.mem_map_of_mem pyLowerChar hm
    have h3 : pyLowerChar ';' = ';' := rfl
    rw [h3] at h2
    exact h2
  have := containsSub_singleton.mpr hmem
  rw [show ([(';' : Char)]) = ";".data from rfl, h] at this
  cases this

theorem validate_ok_no_semi {sql v : List Char} (h : _validate_sql sql = .ok v) :
    (';' : Char) ∉ v := by
  have hv := validate_ok_eq h
  have hc := (validate_ok_conditions h).2.1
  rw [← hv] at hc
  exact not_semi_of_contains hc

theorem head?_dropLast_some {l : List Char} {c : Char}
    (h : l.dropLast.head? = some c) : l.head? = some c := by
  cases l with
  | nil => cases h
  | cons a t =>
    cases t with
    | nil => cases h
    | cons b t' =>
      rw [List.dropLast_cons₂] at h
      simpa using h

theorem pyStrip_head {s : List Char} :
    ∀ c, (pyStrip s).head? = some c → pyIsSpace c = false := by
  intro c hc
  have hne : pyStrip s ≠ [] := by
    intro h
    rw [h] at hc
    cases hc
  rw [show pyStrip s = rstripWhile pyIsSpace (pyLstrip s) from rfl,
    rstripWhile_head hne] at hc
  exact pyLstrip_head c hc

theorem cleanOnce_head {sql : List Char} :
    ∀ c, (cleanOnce sql).head? = some c → pyIsSpace c = false := by
  intro c hc
  unfold cleanOnce at hc
  split at hc
  · exact pyStrip_head c (head?_dropLast_some hc)
  · exact pyStrip_head c hc

theorem cleanOnce_lstrip (sql : List Char) :
    pyLstrip (cleanOnce sql) = cleanOnce sql :=
  dropWhile_eq_self_of_head cleanOnce_head

theorem cleanOnce_fold_lstrip (sql : List Char) :
    pyLstrip (foldText (cleanOnce sql)) = foldText (cleanOnce sql) := by
  rw [← foldText_lstrip, cleanOnce_lstrip]

theorem wrapCleaned_eq_strip {v : List Char} (hsemi : (';' : Char) ∉ v) :
    wrapCleaned v = pyStrip v := by
  apply rstripWhile_eq_self
  intro c hc
  have hmem : c ∈ pyStrip v := by
    rcases List.mem_getLast?_eq_getLast hc with ⟨hne, hcc⟩
    rw [hcc]
    exact List.getLast_mem hne
  have hcne : ¬ (c = ';') := fun he => hsemi (he ▸ mem_pyStrip hmem)
  exact decide_eq_false hcne

theorem cleanOnce_strip_no_semi {v : List Char} (hsemi : (';' : Char) ∉ v) :
    cleanOnce (pyStrip v) = pyStrip v := by
  have hns : ¬ ((pyStrip (pyStrip v)).getLast? = some ';') := by
    rw [pyStrip_idem]
    intro hc
    have hmem : (';' : Char) ∈ pyStrip v := by
      rcases List.mem_getLast?_eq_getLast hc with ⟨hne, hcc⟩
      rw [show (';' : Char) = (pyStrip v).getLast hne from hcc]
      exact List.getLast_mem hne
    exact hsemi (mem_pyStrip hmem)
  unfold cleanOnce
  rw [if_neg hns, pyStrip_idem]

theorem allowedVerbs_ne : ∀ p ∈ allowedVerbs, p ≠ [] := by decide

theorem strip_ne_of_verb {v : List Char}
    (h : startsWithAny allowedVerbs (pyLstrip (foldText v)) = true) :
    pyStrip v ≠ [] := by
  rcases List.any_eq_true.mp h with ⟨p, hp, hpref⟩
  rcases isPref_iff.mp hpref with ⟨r, hr⟩
  obtain ⟨c, p', rfl⟩ : ∃ c p', p = c :: p' := by
    cases p with
    | nil => exact absurd rfl (allowedVerbs_ne _ hp)
    | cons c p' => exact ⟨c, p', rfl⟩
  have hcns : pyIsSpace c = false :=
    allowedVerbs_nospace _ hp c (List.mem_cons_self _ _)
  intro hstrip
  have h1 : pyStrip (foldText v) = [] := by
    rw [← foldText_strip, hstrip]
    rfl
  have h2 : ∀ x ∈ pyLstrip (foldText v), pyIsSpace x = true := rstripWhile_eq_nil h1
  have h3 := h2 c (by
    rw [hr]
    exact List.mem_append_left _ (List.mem_cons_self _ _))
  rw [hcns] at h3
  cases h3

theorem strip_decomp_of_lstrip_id {x : List Char} (hl : pyLstrip x = x) :
    ∃ r, x = pyStrip x ++ r ∧ ∀ c ∈ r, pyIsSpace c = true := by
  rcases rstripWhile_decomp pyIsSpace (pyLstrip x) with ⟨r, hr, hall⟩
  rw [hl] at hr
  refine ⟨r, ?_, hall⟩
  rw [show pyStrip x = rstripWhile pyIsSpace (pyLstrip x) from rfl, hl]
  exact hr

theorem chainHere_strip_of_lstrip_id {w : List Char} {ws : List (List Char)}
    (hok : wordsOK w ws = true) {x : List Char} (hl : pyLstrip x = x) :
    chainHere w ws (pyStrip x) = chainHere w ws x := by
  rcases strip_decomp_of_lstrip_id hl with ⟨r, hx, hall⟩
  conv_rhs => rw [hx]
  exact (chainHere_spaces hall w ws hok (pyStrip x)).symm

theorem isPref_of_strip_lstrip_id {w x : List Char} (hl : pyLstrip x = x)
    (h : isPref w (pyStrip x) = true) : isPref w x = true := by
  rcases strip_decomp_of_lstrip_id hl with ⟨r, hx, -⟩
  rcases isPref_iff.mp h with ⟨r0, h0⟩
  exact isPref_iff.mpr ⟨r0 ++ r, by rw [hx, h0, List.append_assoc]⟩

/-! ### The Limiter on validated statements -/

theorem wrapLower_eq {v : List Char} (hsemi : (';' : Char) ∉ v) :
    pyLstrip (foldText (wrapCleaned v)) = pyStrip (foldText v) := by
  rw [wrapCleaned_eq_strip hsemi, foldText_strip, pyStrip_lstrip]

theorem wrap_not_select {v : List Char} (hsemi : (';' : Char) ∉ v)
    (hsel : isPref "select".data (pyLstrip (foldText v)) = false) :
    _wrap_query_with_limit v 1000 = pyStrip v := by
  have hsel' : isPref "select".data (pyStrip (foldText v)) = false := by
    rw [isPref_strip_lstrip (by decide) (foldText v)]
    exact hsel
  unfold _wrap_query_with_limit
  rw [wrapLower_eq hsemi, hsel']
  simp [wrapCleaned_eq_strip hsemi]

theorem wrap_select_limit {v : List Char} (hsemi : (';' : Char) ∉ v)
    (hsel : isPref "select".data (pyLstrip (foldText v)) = true)
    (hlim : searchChain "limit".data [] (foldText v) = true) :
    _wrap_query_with_limit v 1000 = pyStrip v := by
  have hsel' : isPref "select".data (pyStrip (foldText v)) = true := by
    rw [isPref_strip_lstrip (by decide) (foldText v)]
    exact hsel
  have hlim' : searchChain "limit".data [] (pyStrip (foldText v)) = true := by
    rw [searchChain_strip _ _ (by decide) (foldText v)]
    exact hlim
  unfold _wrap_query_with_limit
  rw [wrapLower_eq hsemi, hsel', hlim']
  simp [wrapCleaned_eq_strip hsemi]

theorem wrap_select_nolimit {v : List Char} (hsemi : (';' : Char) ∉ v)
    (hsel : isPref "select".data (pyLstrip (foldText v)) = true)
    (hlim : searchChain "limit".data [] (foldText v) = false) :
    _wrap_query_with_limit v 1000
      = "SELECT * FROM (".data ++ pyStrip v ++ ") AS subquery LIMIT 1000".data := by
  have hsel' : isPref "select".data (pyStrip (foldText v)) = true := by
    rw [isPref_strip_lstrip (by decide) (foldText v)]
    exact hsel
  have hlim' : searchChain "limit".data [] (pyStrip (foldText v)) = false := by
    rw [searchChain_strip _ _ (by decide) (foldText v)]
    exact hlim
  have htail : ") AS subquery LIMIT ".data ++ (Nat.repr 1000).data
      = ") AS subquery LIMIT 1000".data := rfl
  unfold _wrap_query_with_limit
  rw [wrapLower_eq hsemi, hsel', hlim', wrapCleaned_eq_strip hsemi,
    if_neg (show ¬(((!true : Bool)) = true) from by decide),
    if_neg (show ¬((false : Bool) = true) from by decide),
    List.append_assoc, htail]

theorem searchChain_sep {w : List Char} {ws : List (List Char)} {d : Char}
    (hok : wordsOK w ws = true) (hwc : isWordChar d = false)
    (hsp : pyIsSpace d = false) (A b : List Char) :
    searchChain w ws (A ++ d :: b) = (searchChain w ws A || searchChain w ws b) :=
  searchChainAux_sep hok hwc hsp b A true

theorem countChain_sep {w : List Char} {ws : List (List Char)} {d : Char}
    (hok : wordsOK w ws = true) (hwc : isWordChar d = false)
    (hsp : pyIsSpace d = false) (A b : List Char) :
    countChain w ws (A ++ d :: b) = countChain w ws A + countChain w ws b :=
  countChainAux_sep hok hwc hsp b A true

theorem countChain_zero_iff {w : List Char} {ws : List (List Char)} {s : List Char} :
    countChain w ws s = 0 ↔ searchChain w ws s = false :=
  countChainAux_zero_iff

theorem validate_strip_of_ok {sql v : List Char} (h : _validate_sql sql = .ok v) :
    _validate_sql (pyStrip v) = .ok (pyStrip v) := by
  have hv := validate_ok_eq h
  obtain ⟨c1, c2, c3, c4, c5, c6, c7, c8, c9, c10, c11⟩ := validate_ok_conditions h
  rw [← hv] at c2 c3 c4 c5 c6 c7 c8 c9 c10 c11
  have hsemi : (';' : Char) ∉ v := not_semi_of_contains c2
  have hlid : pyLstrip (foldText v) = foldText v := by
    rw [hv]
    exact cleanOnce_fold_lstrip sql
  have hclean : cleanOnce (pyStrip v) = pyStrip v := cleanOnce_strip_no_semi hsemi
  have hfs : foldText (cleanOnce (pyStrip v)) = pyStrip (foldText v) := by
    rw [hclean, foldText_strip]
  have hne : pyStrip v ≠ [] := strip_ne_of_verb c3
  have H1 : (pyStrip (pyStrip v)).isEmpty = false := by
    rw [pyStrip_idem]
    cases hy : pyStrip v with
    | nil => exact absurd hy hne
    | cons a t => rfl
  have H2 : containsSub ";".data (foldText (cleanOnce (pyStrip v))) = false := by
    rw [hfs]
    exact containsSub_strip_false c2
  have H3 : startsWithAny allowedVerbs
      (pyLstrip (foldText (cleanOnce (pyStrip v)))) = true := by
    rw [hfs, pyStrip_lstrip,
      startsWithAny_strip_lstrip allowedVerbs_nospace (foldText v)]
    exact c3
  have H4 : containsSub "/etc/".data (foldText (cleanOnce (pyStrip v))) = false := by
    rw [hfs]
    exact containsSub_strip_false c4
  have H5 : containsSub "..".data (foldText (cleanOnce (pyStrip v))) = false := by
    rw [hfs]
    exact containsSub_strip_false c5
  have H6 : forbiddenHit (foldText (cleanOnce (pyStrip v))) = false := by
    rw [hfs, forbiddenHit_strip]
    exact c6
  have H7 : searchChain "join".data [] (foldText (cleanOnce (pyStrip v))) = false := by
    rw [hfs, searchChain_strip _ _ (by decide) (foldText v)]
    exact c7
  have H8 : searchChain "from".data [] (foldText (cleanOnce (pyStrip v))) = true →
      searchChain "from".data ["tablename".data]
        (foldText (cleanOnce (pyStrip v))) = true := by
    rw [hfs, searchChain_strip "from".data [] (by decide) (foldText v),
      searchChain_strip "from".data ["tablename".data] (by decide) (foldText v)]
    exact c8
  have H9 : isPref "update ".data (foldText (cleanOnce (pyStrip v))) = true →
      chainHere "update".data ["tablename".data]
        (foldText (cleanOnce (pyStrip v))) = true := by
    rw [hfs]
    intro hu
    rw [chainHere_strip_of_lstrip_id (by decide) hlid]
    exact c9 (isPref_of_strip_lstrip_id hlid hu)
  have H10 : isPref "delete ".data (foldText (cleanOnce (pyStrip v))) = true →
      chainHere "delete".data ["from".data, "tablename".data]
        (foldText (cleanOnce (pyStrip v))) = true := by
    rw [hfs]
    intro hu
    rw [chainHere_strip_of_lstrip_id (by decide) hlid]
    exact c10 (isPref_of_strip_lstrip_id hlid hu)
  have H11 : isPref "insert ".data (foldText (cleanOnce (pyStrip v))) = true →
      chainHere "insert".data ["into".data, "tablename".data]
        (foldText (cleanOnce (pyStrip v))) = true := by
    rw [hfs]
    intro hu
    rw [chainHere_strip_of_lstrip_id (by decide) hlid]
    exact c11 (isPref_of_strip_lstrip_id hlid hu)
  have hres := validate_ok_intro H1 H2 H3 H4 H5 H6 H7 H8 H9 H10 H11
  rw [hclean] at hres
  exact hres

theorem validate_wrapped {v : List Char}
    (hsemi2 : containsSub ";".data (foldText v) = false)
    (hetc : containsSub "/etc/".data (foldText v) = false)
    (hdots : containsSub "..".data (foldText v) = false)
    (hforb : forbiddenHit (foldText v) = false)
    (hjoin : searchChain "join".data [] (foldText v) = false)
    (hfromtbl : searchChain "from".data ["tablename".data] (foldText v) = true) :
    _validate_sql
        ("SELECT * FROM (".data ++ pyStrip v ++ ") AS subquery LIMIT 1000".data)
      = .ok ("SELECT * FROM (".data ++ pyStrip v ++ ") AS subquery LIMIT 1000".data) := by
  have hlast : (("SELECT * FROM (".data ++ pyStrip v)
      ++ ") AS subquery LIMIT 1000".data).getLast? = some '0' := by
    rw [List.getLast?_append_of_ne_nil _ (by decide)]
    decide
  have hstripW : pyStrip (("SELECT * FROM (".data ++ pyStrip v)
      ++ ") AS subquery LIMIT 1000".data)
      = ("SELECT * FROM (".data ++ pyStrip v) ++ ") AS subquery LIMIT 1000".data := by
    have hl : pyLstrip (("SELECT * FROM (".data ++ pyStrip v)
        ++ ") AS subquery LIMIT 1000".data)
        = ("SELECT * FROM (".data ++ pyStrip v) ++ ") AS subquery LIMIT 1000".data := by
      apply dropWhile_eq_self_of_head
      intro c hc
      rw [show ((("SELECT * FROM (".data ++ pyStrip v)
        ++ ") AS subquery LIMIT 1000".data)).head? = some 'S' from rfl] at hc
      injection hc with hc
      rw [← hc]
      decide
    show rstripWhile pyIsSpace (pyLstrip _) = _
    rw [hl]
    apply rstripWhile_eq_self
    intro c hc
    rw [hlast] at hc
    injection hc with hc
    rw [← hc]
    decide
  have hcleanW : cleanOnce (("SELECT * FROM (".data ++ pyStrip v)
      ++ ") AS subquery LIMIT 1000".data)
      = ("SELECT * FROM (".data ++ pyStrip v) ++ ") AS subquery LIMIT 1000".data := by
    unfold cleanOnce
    rw [hstripW, hlast,
      if_neg (show ¬((some '0' : Option Char) = some ';') from by decide)]
  have hfoldW : foldText (("SELECT * FROM (".data ++ pyStrip v)
      ++ ") AS subquery LIMIT 1000".data)
      = ("select * from (".data ++ pyStrip (foldText v))
        ++ ") as subquery limit 1000".data := by
    unfold foldText
    rw [List.map_append, List.map_append,
      show List.map pyLowerChar "SELECT * FROM (".data
        = "select * from (".data from rfl,
      show List.map pyLowerChar ") AS subquery LIMIT 1000".data
        = ") as subquery limit 1000".data from rfl,
      show List.map pyLowerChar (pyStrip v)
        = pyStrip (List.map pyLowerChar v) from foldText_strip v]
  have H1 : (pyStrip (("SELECT * FROM (".data ++ pyStrip v)
      ++ ") AS subquery LIMIT 1000".data)).isEmpty = false := by
    rw [hstripW]
    rfl
  have H2 : containsSub ";".data (foldText (cleanOnce
      (("SELECT * FROM (".data ++ pyStrip v)
        ++ ") AS subquery LIMIT 1000".data))) = false := by
    rw [hcleanW, hfoldW]
    show containsSub ";".data ("select * from ".data
      ++ '(' :: (pyStrip (foldText v) ++ ')' :: " as subquery limit 1000".data)) = false
    rw [containsSub_sep (by decide) (by decide) "select * from ".data
        (pyStrip (foldText v) ++ ')' :: " as subquery limit 1000".data),
      containsSub_sep (by decide) (by decide) (pyStrip (foldText v))
        " as subquery limit 1000".data,
      show containsSub ";".data "select * from ".data = false from by decide,
      show containsSub ";".data " as subquery limit 1000".data = false from by decide,
      containsSub_strip_false hsemi2]
    rfl
  have H4 : containsSub "/etc/".data (foldText (cleanOnce
      (("SELECT * FROM (".data ++ pyStrip v)
        ++ ") AS subquery LIMIT 1000".data))) = false := by
    rw [hcleanW, hfoldW]
    show containsSub "/etc/".data ("select * from ".data
      ++ '(' :: (pyStrip (foldText v) ++ ')' :: " as subquery limit 1000".data)) = false
    rw [containsSub_sep (by decide) (by decide) "select * from ".data
        (pyStrip (foldText v) ++ ')' :: " as subquery limit 1000".data),
      containsSub_sep (by decide) (by decide) (pyStrip (foldText v))
        " as subquery limit 1000".data,
      show containsSub "/etc/".data "select * from ".data = false from by decide,
      show containsSub "/etc/".data " as subquery limit 1000".data = false from by decide,
      containsSub_strip_false hetc]
    rfl
  have H5 : containsSub "..".data (foldText (cleanOnce
      (("SELECT * FROM (".data ++ pyStrip v)
        ++ ") AS subquery LIMIT 1000".data))) = false := by
    rw [hcleanW, hfoldW]
    show containsSub "..".data ("select * from ".data
      ++ '(' :: (pyStrip (foldText v) ++ ')' :: " as subquery limit 1000".data)) = false
    rw [containsSub_sep (by decide) (by decide) "select * from ".data
        (pyStrip (foldText v) ++ ')' :: " as subquery limit 1000".data),
      containsSub_sep (by decide) (by decide) (pyStrip (foldText v))
        " as subquery limit 1000".data,
      show containsSub "..".data "select * from ".data = false from by decide,
      show containsSub "..".data " as subquery limit 1000".data = false from by decide,
      containsSub_strip_false hdots]
    rfl
  have H6 : forbiddenHit (foldText (cleanOnce
      (("SELECT * FROM (".data ++ pyStrip v)
        ++ ") AS subquery LIMIT 1000".data))) = false := by
    rw [hcleanW, hfoldW]
    show forbiddenHit ("select * from ".data
      ++ '(' :: (pyStrip (foldText v) ++ ')' :: " as subquery limit 1000".data)) = false
    rw [forbiddenHit_sep (by decide) (by decide) "select * from ".data
        (pyStrip (foldText v) ++ ')' :: " as subquery limit 1000".data),
      forbiddenHit_sep (by decide) (by decide) (pyStrip (foldText v))
        " as subquery limit 1000".data,
      show forbiddenHit "select * from ".data = false from by decide,
      show forbiddenHit " as subquery limit 1000".data = false from by decide,
      forbiddenHit_strip (foldText v), hforb]
    rfl
  have H7 : searchChain "join".data [] (foldText (cleanOnce
      (("SELECT * FROM (".data ++ pyStrip v)
        ++ ") AS subquery LIMIT 1000".data))) = false := by
    rw [hcleanW, hfoldW]
    show searchChain "join".data [] ("select * from ".data
      ++ '(' :: (pyStrip (foldText v) ++ ')' :: " as subquery limit 1000".data)) = false
    rw [searchChain_sep (by decide) (by decide) (by decide) "select * from ".data
        (pyStrip (foldText v) ++ ')' :: " as subquery limit 1000".data),
      searchChain_sep (by decide) (by decide) (by decide) (pyStrip (foldText v))
        " as subquery limit 1000".data,
      show searchChain "join".data [] "select * from ".data = false from by decide,
      show searchChain "join".data [] " as subquery limit 1000".data = false from by decide,
      searchChain_strip "join".data [] (by decide) (foldText v), hjoin]
    rfl
  have hfromtblW : searchChain "from".data ["tablename".data] (foldText (cleanOnce
      (("SELECT * FROM (".data ++ pyStrip v)
        ++ ") AS subquery LIMIT 1000".data))) = true := by
    rw [hcleanW, hfoldW]
    show searchChain "from".data ["tablename".data] ("select * from ".data
      ++ '(' :: (pyStrip (foldText v) ++ ')' :: " as subquery limit 1000".data)) = true
    rw [searchChain_sep (by decide) (by decide) (by decide) "select * from ".data
        (pyStrip (foldText v) ++ ')' :: " as subquery limit 1000".data),
      searchChain_sep (by decide) (by decide) (by decide) (pyStrip (foldText v))
        " as subquery limit 1000".data,
      searchChain_strip "from".data ["tablename".data] (by decide) (foldText v),
      hfromtbl]
    simp
  have H3 : startsWithAny allowedVerbs (pyLstrip (foldText (cleanOnce
      (("SELECT * FROM (".data ++ pyStrip v)
        ++ ") AS subquery LIMIT 1000".data)))) = true := by
    rw [hcleanW, hfoldW]
    have hWl : pyLstrip (("select * from (".data ++ pyStrip (foldText v))
        ++ ") as subquery limit 1000".data)
        = ("select * from (".data ++ pyStrip (foldText v))
          ++ ") as subquery limit 1000".data := by
      apply dropWhile_eq_self_of_head
      intro c hc
      rw [show ((("select * from (".data ++ pyStrip (foldText v))
        ++ ") as subquery limit 1000".data)).head? = some 's' from rfl] at hc
      injection hc with hc
      rw [← hc]
      decide
    rw [hWl]
    have hsel : isPref "select".data (("select * from (".data ++ pyStrip (foldText v))
        ++ ") as subquery limit 1000".data) = true :=
      isPref_iff.mpr ⟨(" * from (".data ++ pyStrip (foldText v))
        ++ ") as subquery limit 1000".data, rfl⟩
    unfold startsWithAny allowedVerbs
    simp only [List.any_cons, List.any_nil, hsel, Bool.true_or]
  have hupdW : isPref "update ".data (foldText (cleanOnce
      (("SELECT * FROM (".data ++ pyStrip v)
        ++ ") AS subquery LIMIT 1000".data))) = false := by
    rw [hcleanW, hfoldW]
    rfl
  have hdelW : isPref "delete ".data (foldText (cleanOnce
      (("SELECT * FROM (".data ++ pyStrip v)
        ++ ") AS subquery LIMIT 1000".data))) = false := by
    rw [hcleanW, hfoldW]
    rfl
  have hinsW : isPref "insert ".data (foldText (cleanOnce
      (("SELECT * FROM (".data ++ pyStrip v)
        ++ ") AS subquery LIMIT 1000".data))) = false := by
    rw [hcleanW, hfoldW]
    rfl
  have hres := validate_ok_intro H1 H2 H3 H4 H5 H6 H7
    (fun _ => hfromtblW)
    (fun hu => absurd (hupdW ▸ hu) (by simp))
    (fun hu => absurd (hdelW ▸ hu) (by simp))
    (fun hu => absurd (hinsW ▸ hu) (by simp))
  rw [hcleanW] at hres
  exact hres

/-! ### The rewritten SELECT as a value -/

theorem foldW_eq (v : List Char) :
    foldText (("SELECT * FROM (".data ++ pyStrip v)
      ++ ") AS subquery LIMIT 1000".data)
      = ("select * from (".data ++ pyStrip (foldText v))
        ++ ") as subquery limit 1000".data := by
  unfold foldText
  rw [List.map_append, List.map_append,
    show List.map pyLowerChar "SELECT * FROM (".data
      = "select * from (".data from rfl,
    show List.map pyLowerChar ") AS subquery LIMIT 1000".data
      = ") as subquery limit 1000".data from rfl,
    show List.map pyLowerChar (pyStrip v)
      = pyStrip (List.map pyLowerChar v) from foldText_strip v]

theorem stripW_eq (v : List Char) :
    pyStrip (("SELECT * FROM (".data ++ pyStrip v)
      ++ ") AS subquery LIMIT 1000".data)
      = ("SELECT * FROM (".data ++ pyStrip v) ++ ") AS subquery LIMIT 1000".data := by
  have hlast : (("SELECT * FROM (".data ++ pyStrip v)
      ++ ") AS subquery LIMIT 1000".data).getLast? = some '0' := by
    rw [List.getLast?_append_of_ne_nil _ (by decide)]
    decide
  have hl : pyLstrip (("SELECT * FROM (".data ++ pyStrip v)
      ++ ") AS subquery LIMIT 1000".data)
      = ("SELECT * FROM (".data ++ pyStrip v) ++ ") AS subquery LIMIT 1000".data := by
    apply dropWhile_eq_self_of_head
    intro c hc
    rw [show ((("SELECT * FROM (".data ++ pyStrip v)
      ++ ") AS subquery LIMIT 1000".data)).head? = some 'S' from rfl] at hc
    injection hc with hc
    rw [← hc]
    decide
  show rstripWhile pyIsSpace (pyLstrip _) = _
  rw [hl]
  apply rstripWhile_eq_self
  intro c hc
  rw [hlast] at hc
  injection hc with hc
  rw [← hc]
  decide

theorem semiW_not_mem {v : List Char} (hsemi : (';' : Char) ∉ v) :
    (';' : Char) ∉ (("SELECT * FROM (".data ++ pyStrip v)
      ++ ") AS subquery LIMIT 1000".data) := by
  intro hm
  rcases List.mem_append.mp hm with hm1 | hm2
  · rcases List.mem_append.mp hm1 with hma | hmb
    · exact absurd hma (by decide)
    · exact hsemi (mem_pyStrip hmb)
  · exact absurd hm2 (by decide)

theorem selW_true (v : List Char) :
    isPref "select".data (pyLstrip (foldText
      (("SELECT * FROM (".data ++ pyStrip v)
        ++ ") AS subquery LIMIT 1000".data))) = true := by
  rw [foldW_eq]
  have hWl : pyLstrip (("select * from (".data ++ pyStrip (foldText v))
      ++ ") as subquery limit 1000".data)
      = ("select * from (".data ++ pyStrip (foldText v))
        ++ ") as subquery limit 1000".data := by
    apply dropWhile_eq_self_of_head
    intro c hc
    rw [show ((("select * from (".data ++ pyStrip (foldText v))
      ++ ") as subquery limit 1000".data)).head? = some 's' from rfl] at hc
    injection hc with hc
    rw [← hc]
    decide
  rw [hWl]
  exact isPref_iff.mpr ⟨(" * from (".data ++ pyStrip (foldText v))
    ++ ") as subquery limit 1000".data, rfl⟩

theorem limW_true (v : List Char) :
    searchChain "limit".data [] (foldText
      (("SELECT * FROM (".data ++ pyStrip v)
        ++ ") AS subquery LIMIT 1000".data)) = true := by
  rw [foldW_eq]
  show searchChain "limit".data [] ("select * from ".data
    ++ '(' :: (pyStrip (foldText v) ++ ')' :: " as subquery limit 1000".data)) = true
  rw [searchChain_sep (by decide) (by decide) (by decide) "select * from ".data
      (pyStrip (foldText v) ++ ')' :: " as subquery limit 1000".data),
    searchChain_sep (by decide) (by decide) (by decide) (pyStrip (foldText v))
      " as subquery limit 1000".data,
    show searchChain "limit".data [] " as subquery limit 1000".data = true from by decide]
  simp

/-! ### Claims -/

/-- C1: for every accepted select statement whose folded text does not contain
a LIMIT keyword, the Limiter's output is exactly the trimmed cleaned statement
wrapped verbatim as a subquery with the default row cap appended, and the
rewritten text contains exactly one word-boundary occurrence of LIMIT, whose
value is 1000. -/
theorem C1_select_wrapped_with_default_cap (sql v : List Char)
    (hok : _validate_sql sql = .ok v)
    (hsel : isPref "select".data (pyLstrip (foldText v)) = true)
    (hlim : searchChain "limit".data [] (foldText v) = false) :
    _wrap_query_with_limit v 1000
      = "SELECT * FROM (".data ++ pyStrip v ++ ") AS subquery LIMIT 1000".data
    ∧ countChain "limit".data [] (foldText (_wrap_query_with_limit v 1000)) = 1 := by
  have hsemi : (';' : Char) ∉ v := validate_ok_no_semi hok
  have hwrap := wrap_select_nolimit hsemi hsel hlim
  refine ⟨hwrap, ?_⟩
  rw [hwrap, foldW_eq]
  show countChain "limit".data [] ("select * from ".data
    ++ '(' :: (pyStrip (foldText v) ++ ')' :: " as subquery limit 1000".data)) = 1
  rw [countChain_sep (by decide) (by decide) (by decide) "select * from ".data
      (pyStrip (foldText v) ++ ')' :: " as subquery limit 1000".data),
    countChain_sep (by decide) (by decide) (by decide) (pyStrip (foldText v))
      " as subquery limit 1000".data,
    show countChain "limit".data [] "select * from ".data = 0 from by decide,
    show countChain "limit".data [] " as subquery limit 1000".data = 1 from by decide,
    countChain_zero_iff.mpr (by
      rw [searchChain_strip "limit".data [] (by decide) (foldText v)]
      exact hlim)]

/-- Witness for C1 at the spec's concrete scenario: the input
SELECT * FROM tablename is accepted unchanged and rewritten to exactly
SELECT * FROM (SELECT * FROM tablename) AS subquery LIMIT 1000, which has
exactly one LIMIT clause. -/
theorem C1_select_wrapped_with_default_cap_witness :
    _validate_sql "SELECT * FROM tablename".data
      = .ok "SELECT * FROM tablename".data
    ∧ _wrap_query_with_limit "SELECT * FROM tablename".data 1000
      = "SELECT * FROM (SELECT * FROM tablename) AS subquery LIMIT 1000".data
    ∧ countChain "limit".data []
        (foldText (_wrap_query_with_limit "SELECT * FROM tablename".data 1000)) = 1 := by
  have hok : _validate_sql "SELECT * FROM tablename".data
      = .ok "SELECT * FROM tablename".data := rfl
  have h := C1_select_wrapped_with_default_cap "SELECT * FROM tablename".data
    "SELECT * FROM tablename".data hok (by decide) (by decide)
  refine ⟨hok, ?_, h.2⟩
  rw [h.1]
  decide

/-- C2 counterexample: the accepted select statement SELECT 1 (no FROM clause,
no LIMIT) is wrapped by the Limiter, and re-validating the wrapped text fails
with the wrong-table reason, because the wrapper's own FROM is followed by a
parenthesised subquery rather than by the literal table name. -/
theorem C2_roundtrip_counterexample :
    _validate_sql "SELECT 1".data = .ok "SELECT 1".data
    ∧ isPref "select".data (pyLstrip (foldText "SELECT 1".data)) = true
    ∧ _validate_sql (_wrap_query_with_limit "SELECT 1".data 1000)
        = .error ⟨400, fromDetail⟩ := by
  exact ⟨rfl, by decide, rfl⟩

/-- C2 (amended): re-validating the Limiter's output succeeds for every
accepted select statement whose folded text contains a FROM keyword or a
LIMIT keyword; the round trip fails precisely for FROM-less selects that get
wrapped, since the wrapper's FROM does not reference the managed table. -/
theorem C2_roundtrip_amended (sql v : List Char)
    (hok : _validate_sql sql = .ok v)
    (hsel : isPref "select".data (pyLstrip (foldText v)) = true)
    (hfl : searchChain "from".data [] (foldText v) = true
         ∨ searchChain "limit".data [] (foldText v) = true) :
    _validate_sql (_wrap_query_with_limit v 1000)
      = .ok (_wrap_query_with_limit v 1000) := by
  have hsemi := validate_ok_no_semi hok
  cases hlim : searchChain "limit".data [] (foldText v) with
  | true =>
    rw [wrap_select_limit hsemi hsel hlim]
    exact validate_strip_of_ok hok
  | false =>
    have hfrom : searchChain "from".data [] (foldText v) = true := by
      rcases hfl with hf | hl
      · exact hf
      · rw [hlim] at hl
        cases hl
    obtain ⟨c1, c2, c3, c4, c5, c6, c7, c8, c9, c10, c11⟩ := validate_ok_conditions hok
    have hv := validate_ok_eq hok
    rw [← hv] at c2 c4 c5 c6 c7 c8
    rw [wrap_select_nolimit hsemi hsel hlim]
    exact validate_wrapped c2 c4 c5 c6 c7 (c8 hfrom)

/-- Witness for C2 (amended): a select statement with a FROM clause
round-trips through the Limiter and the Validator. -/
theorem C2_roundtrip_amended_witness :
    _validate_sql (_wrap_query_with_limit "SELECT id FROM tablename".data 1000)
      = .ok (_wrap_query_with_limit "SELECT id FROM tablename".data 1000) :=
  C2_roundtrip_amended "SELECT id FROM tablename".data
    "SELECT id FROM tablename".data rfl (by decide) (Or.inl (by decide))

/-- C3 counterexample: the input SELECT 1 LIMIT 5 followed by a space and a
terminator is accepted as the cleaned text SELECT 1 LIMIT 5 with a trailing
space; the Limiter does not return that statement unchanged, because its own
cleaning re-trims the trailing whitespace. -/
theorem C3_limit_unchanged_counterexample :
    _validate_sql "SELECT 1 LIMIT 5 ;".data = .ok "SELECT 1 LIMIT 5 ".data
    ∧ isPref "select".data (pyLstrip (foldText "SELECT 1 LIMIT 5 ".data)) = true
    ∧ searchChain "limit".data [] (foldText "SELECT 1 LIMIT 5 ".data) = true
    ∧ _wrap_query_with_limit "SELECT 1 LIMIT 5 ".data 1000
        ≠ "SELECT 1 LIMIT 5 ".data := by
  exact ⟨rfl, by decide, by decide, by decide⟩

/-- C3 (amended): for every accepted select statement whose folded text
already contains a LIMIT keyword, the Limiter returns the trimmed statement
(equal to the accepted text whenever it carries no trailing whitespace), and
the Limiter is idempotent on every validated statement: applying it to its
own output never changes the output further. -/
theorem C3_limit_kept_and_idempotent (sql v : List Char)
    (hok : _validate_sql sql = .ok v) :
    (isPref "select".data (pyLstrip (foldText v)) = true →
      searchChain "limit".data [] (foldText v) = true →
      _wrap_query_with_limit v 1000 = pyStrip v)
    ∧ _wrap_query_with_limit (_wrap_query_with_limit v 1000) 1000
        = _wrap_query_with_limit v 1000 := by
  have hsemi := validate_ok_no_semi hok
  have hsemi2 : (';' : Char) ∉ pyStrip v := fun hm => hsemi (mem_pyStrip hm)
  refine ⟨fun hsel hlim => wrap_select_limit hsemi hsel hlim, ?_⟩
  cases hsel : isPref "select".data (pyLstrip (foldText v)) with
  | false =>
    rw [wrap_not_select hsemi hsel]
    have hsel' : isPref "select".data (pyLstrip (foldText (pyStrip v))) = false := by
      rw [foldText_strip, pyStrip_lstrip,
        isPref_strip_lstrip (by decide) (foldText v)]
      exact hsel
    rw [wrap_not_select hsemi2 hsel', pyStrip_idem]
  | true =>
    cases hlim : searchChain "limit".data [] (foldText v) with
    | true =>
      rw [wrap_select_limit hsemi hsel hlim]
      have hsel' : isPref "select".data (pyLstrip (foldText (pyStrip v))) = true := by
        rw [foldText_strip, pyStrip_lstrip,
          isPref_strip_lstrip (by decide) (foldText v)]
        exact hsel
      have hlim' : searchChain "limit".data [] (foldText (pyStrip v)) = true := by
        rw [foldText_strip, searchChain_strip _ _ (by decide) (foldText v)]
        exact hlim
      rw [wrap_select_limit hsemi2 hsel' hlim', pyStrip_idem]
    | false =>
      rw [wrap_select_nolimit hsemi hsel hlim]
      rw [wrap_select_limit (semiW_not_mem hsemi) (selW_true v) (limW_true v),
        stripW_eq]

/-- Witness for C3: a select statement with its own LIMIT keeps it (the
output is the trimmed statement) and the Limiter is idempotent there. -/
theorem C3_limit_kept_and_idempotent_witness :
    _wrap_query_with_limit "SELECT 2 LIMIT 7".data 1000
        = pyStrip "SELECT 2 LIMIT 7".data
    ∧ _wrap_query_with_limit
        (_wrap_query_with_limit "SELECT 2 LIMIT 7".data 1000) 1000
        = _wrap_query_with_limit "SELECT 2 LIMIT 7".data 1000 := by
  have h := C3_limit_kept_and_idempotent "SELECT 2 LIMIT 7".data
    "SELECT 2 LIMIT 7".data rfl
  exact ⟨h.1 (by decide) (by decide), h.2⟩

/-- C4 counterexample: the write statement DELETE FROM tablename followed by
a space and a terminator is accepted as DELETE FROM tablename with a trailing
space, and the Limiter does not return it unchanged: it re-trims the
trailing whitespace. -/
theorem C4_write_unchanged_counterexample :
    _validate_sql "DELETE FROM tablename ;".data
      = .ok "DELETE FROM tablename ".data
    ∧ isPref "select".data (pyLstrip (foldText "DELETE FROM tablename ".data)) = false
    ∧ _wrap_query_with_limit "DELETE FROM tablename ".data 1000
        ≠ "DELETE FROM tablename ".data := by
  exact ⟨rfl, by decide, by decide⟩

/-- C4 (amended): for every accepted statement whose leading verb is not
select, the Limiter returns the trimmed statement (equal to the accepted text
whenever it has no trailing whitespace) and never appends a LIMIT clause:
the output's folded text matches the LIMIT keyword exactly when the input's
folded text already did. -/
theorem C4_write_not_limited (sql v : List Char)
    (hok : _validate_sql sql = .ok v)
    (hnsel : isPref "select".data (pyLstrip (foldText v)) = false) :
    _wrap_query_with_limit v 1000 = pyStrip v
    ∧ searchChain "limit".data [] (foldText (_wrap_query_with_limit v 1000))
        = searchChain "limit".data [] (foldText v) := by
  have hsemi := validate_ok_no_semi hok
  have hwrap := wrap_not_select hsemi hnsel
  refine ⟨hwrap, ?_⟩
  rw [hwrap, foldText_strip, searchChain_strip _ _ (by decide) (foldText v)]

/-- Witness for C4: an update statement passes through the Limiter trimmed
and without gaining a LIMIT clause. -/
theorem C4_write_not_limited_witness :
    _wrap_query_with_limit "UPDATE tablename SET x = 2".data 1000
        = pyStrip "UPDATE tablename SET x = 2".data
    ∧ searchChain "limit".data []
        (foldText (_wrap_query_with_limit "UPDATE tablename SET x = 2".data 1000))
        = searchChain "limit".data [] (foldText "UPDATE tablename SET x = 2".data) :=
  C4_write_not_limited "UPDATE tablename SET x = 2".data
    "UPDATE tablename SET x = 2".data rfl (by decide)

/-- C5 counterexample: the statement
SELECT * FROM other WHERE x IN (SELECT 1 FROM tablename) is accepted by the
Validator even though its outer FROM clause's immediate table reference is
the name other, because the check only requires the sequence from-whitespace-
tablename to occur somewhere in the folded text. -/
theorem C5_from_check_counterexample :
    _validate_sql "SELECT * FROM other WHERE x IN (SELECT 1 FROM tablename)".data
      = .ok "SELECT * FROM other WHERE x IN (SELECT 1 FROM tablename)".data
    ∧ searchChain "from".data ["other".data]
        (foldText "SELECT * FROM other WHERE x IN (SELECT 1 FROM tablename)".data)
        = true := by
  exact ⟨rfl, by decide⟩

/-- C5 (amended): an accepted statement whose folded text contains a FROM
keyword always contains some FROM immediately followed by whitespace and the
allowed table name tablename; and when every earlier check passes but no such
sequence exists, the Validator rejects with the wrong-table reason (other
FROM clauses in the same statement may reference other names). -/
theorem C5_from_requires_tablename :
    (∀ sql v, _validate_sql sql = .ok v →
      searchChain "from".data [] (foldText v) = true →
      searchChain "from".data ["tablename".data] (foldText v) = true)
    ∧ (∀ sql, (pyStrip sql).isEmpty = false →
        containsSub ";".data (foldText (cleanOnce sql)) = false →
        startsWithAny allowedVerbs (pyLstrip (foldText (cleanOnce sql))) = true →
        containsSub "/etc/".data (foldText (cleanOnce sql)) = false →
        containsSub "..".data (foldText (cleanOnce sql)) = false →
        forbiddenHit (foldText (cleanOnce sql)) = false →
        searchChain "join".data [] (foldText (cleanOnce sql)) = false →
        searchChain "from".data [] (foldText (cleanOnce sql)) = true →
        searchChain "from".data ["tablename".data] (foldText (cleanOnce sql)) = false →
        _validate_sql sql = .error ⟨400, fromDetail⟩) := by
  constructor
  · intro sql v hok hf
    obtain ⟨-, -, -, -, -, -, -, c8, -, -, -⟩ := validate_ok_conditions hok
    have hv := validate_ok_eq hok
    rw [← hv] at c8
    exact c8 hf
  · intro sql h1 h2 h3 h4 h5 h6 h7 h8 h9
    exact validate_from_error h1 h2 h3 h4 h5 h6 h7 h8 h9

/-- Witness for C5: the accepted statement SELECT * FROM tablename WHERE y = 3
contains from-tablename, and the spec's example SELECT * FROM other_table is
rejected with the wrong-table reason. -/
theorem C5_from_requires_tablename_witness :
    searchChain "from".data ["tablename".data]
      (foldText "SELECT * FROM tablename WHERE y = 3".data) = true
    ∧ _validate_sql "SELECT * FROM other_table".data = .error ⟨400, fromDetail⟩ := by
  constructor
  · exact C5_from_requires_tablename.1 "SELECT * FROM tablename WHERE y = 3".data
      "SELECT * FROM tablename WHERE y = 3".data rfl (by decide)
  · exact C5_from_requires_tablename.2 "SELECT * FROM other_table".data
      (by decide) (by decide) (by decide) (by decide) (by decide) (by decide)
      (by decide) (by decide) (by decide)

/-- C6: the Validator accepts the statement whose folded text begins with the
word update followed by a tab and a target table other than tablename; the
verb-specific binding check is guarded by startswith of update-space, so a
tab after the verb bypasses it, contradicting the documented rule that only
the managed table may be operated on. -/
theorem C6_update_binding_bypassed :
    _validate_sql "UPDATE\tother SET x = 1".data
      = .ok "UPDATE\tother SET x = 1".data
    ∧ chainHere "update".data [] (foldText "UPDATE\tother SET x = 1".data) = true
    ∧ chainHere "update".data ["tablename".data]
        (foldText "UPDATE\tother SET x = 1".data) = false := by
  exact ⟨rfl, by decide, by decide⟩

/-- C7: whenever the cleaned statement (trimmed, one trailing terminator
removed) still contains a statement separator anywhere, the Validator rejects
with the multiple-statements reason, regardless of which later checks would
also fail. -/
theorem C7_separator_rejected_first (sql : List Char)
    (h : (';' : Char) ∈ cleanOnce sql) :
    _validate_sql sql = .error ⟨400, multipleDetail⟩ :=
  validate_multiple h

/-- Witness for C7 at the spec's concrete scenario: an update followed by a
second delete statement is rejected with the multiple-statements reason even
though later checks would also have objections. -/
theorem C7_separator_rejected_first_witness :
    _validate_sql "UPDATE tablename SET x=1; DELETE FROM tablename".data
      = .error ⟨400, multipleDetail⟩ :=
  C7_separator_rejected_first
    "UPDATE tablename SET x=1; DELETE FROM tablename".data (by decide)

/-- C8: whitespace-only input is rejected with the empty-query reason; every
rejection of the Validator carries the caller-fault status 400 and one of the
ten fixed reason strings, which are pairwise distinct, so the violated rule
is always identifiable. -/
theorem C8_rejections_are_distinguishable_400s :
    (∀ sql : List Char, (∀ c ∈ sql, pyIsSpace c = true) →
      _validate_sql sql = .error ⟨400, emptyDetail⟩)
    ∧ (∀ (sql : List Char) (e : HTTPError), _validate_sql sql = .error e →
        e.status_code = 400 ∧ e.detail ∈ allDetails)
    ∧ allDetails.Nodup := by
  refine ⟨?_, fun sql e h => validate_error_inv h, by decide⟩
  intro sql hall
  apply validate_empty
  have hl : pyLstrip sql = [] := dropWhile_eq_nil_of_all hall
  rw [show pyStrip sql = rstripWhile pyIsSpace (pyLstrip sql) from rfl, hl]
  rfl

/-- Witness for C8: a whitespace-only input yields the empty-query 400, and a
rejected input's reason string is one of the ten fixed reasons. -/
theorem C8_rejections_are_distinguishable_400s_witness :
    _validate_sql "  ".data = .error ⟨400, emptyDetail⟩
    ∧ ((⟨400, verbDetail⟩ : HTTPError).status_code = 400
        ∧ (⟨400, verbDetail⟩ : HTTPError).detail ∈ allDetails) :=
  ⟨C8_rejections_are_distinguishable_400s.1 "  ".data (by decide),
   C8_rejections_are_distinguishable_400s.2.1 "foo".data ⟨400, verbDetail⟩ rfl⟩

/-- C9: the text returned for every accepted input is the input itself with
surrounding whitespace trimmed and at most one trailing terminator removed;
no case folding is applied to it, so the original casing is preserved. -/
theorem C9_accepted_text_is_trimmed_input (sql v : List Char)
    (h : _validate_sql sql = .ok v) :
    pyStrip sql = v ∨ pyStrip sql = v ++ ";".data := by
  have hv := validate_ok_eq h
  unfold cleanOnce at hv
  split at hv
  · next hlast =>
    right
    rw [hv]
    exact (List.dropLast_append_getLast? ';' hlast).symm
  · exact Or.inl hv.symm

/-- Witness for C9: an insert statement with a trailing terminator is
returned with exactly that terminator removed and its casing intact. -/
theorem C9_accepted_text_is_trimmed_input_witness :
    pyStrip "INSERT INTO tablename VALUES (1);".data
        = "INSERT INTO tablename VALUES (1)".data
      ∨ pyStrip "INSERT INTO tablename VALUES (1);".data
        = "INSERT INTO tablename VALUES (1)".data ++ ";".data :=
  C9_accepted_text_is_trimmed_input "INSERT INTO tablename VALUES (1);".data
    "INSERT INTO tablename VALUES (1)".data rfl

/-- C10: the cleaned statement returned for every accepted input contains no
semicolon at any position: the single permitted trailing terminator has been
removed and any remaining separator causes rejection, so the text handed to
the Limiter and the execution engine is semicolon-free. -/
theorem C10_accepted_text_semicolon_free (sql v : List Char)
    (h : _validate_sql sql = .ok v) : (';' : Char) ∉ v :=
  validate_ok_no_semi h

/-- Witness for C10: the accepted cleaned form of a delete statement with a
trailing terminator contains no semicolon. -/
theorem C10_accepted_text_semicolon_free_witness :
    (';' : Char) ∉ "DELETE FROM tablename WHERE a = 2".data :=
  C10_accepted_text_semicolon_free "DELETE FROM tablename WHERE a = 2;".data
    "DELETE FROM tablename WHERE a = 2".data rfl
